import Mathlib

/-!
Shallow embedding of the e-learning backend (backend/server.py) and proofs
about its access-control, registry and catalog logic.

Modelling conventions:
- MongoDB collections are lists of records; insert_one appends, find_one
  returns the first match in insertion order, update_one / delete_one act on
  the first match, delete_many / find-with-filter act on all matches.
- Nondeterministic or environment-supplied values (uuid4 ids, timestamps,
  bcrypt hashes and verification results, the stream of random draws behind
  generate_code) are passed as explicit parameters.
- JWT encode/decode round-trips on the structured payload; the expiry check
  models the library raising ExpiredSignatureError when the token is no
  longer valid at the time of use.
- Each handler returns an Outcome: ok carries the response payload and the
  new database; err carries the HTTPException status code and detail string;
  crash models an unhandled exception (subscripting a missing document) or a
  retry loop that exhausts the modelled randomness. On err and crash the
  database is unchanged.
- Response enrichment that does not affect which records are returned or
  which errors are raised (the _count / teacher / createdBy summaries and
  the removal of the Mongo _id field) is elided.
-/

set_option autoImplicit false

namespace Elearn

def UserRole.TEACHER : String := "TEACHER"

def UserRole.STUDENT : String := "STUDENT"

def MaterialType.TEXT : String := "TEXT"

def MaterialType.FILE : String := "FILE"

def MaterialType.VIDEO : String := "VIDEO"

def MaterialType.MODEL3D : String := "MODEL3D"

structure User where
  id : String
  email : String
  password : String
  name : String
  role : String
  avatar : Option String
  createdAt : String
  updatedAt : String
  deriving DecidableEq, Repr

structure Classroom where
  id : String
  name : String
  description : Option String
  subject : String
  code : String
  coverImage : Option String
  isActive : Bool
  teacherId : String
  createdAt : String
  updatedAt : String
  deriving DecidableEq, Repr

structure Enrollment where
  id : String
  studentId : String
  classroomId : String
  joinedAt : String
  deriving DecidableEq, Repr

structure Material where
  id : String
  title : String
  description : Option String
  type : String
  content : Option String
  fileUrl : Option String
  fileName : Option String
  videoUrl : Option String
  modelUrl : Option String
  arEnabled : Bool
  modelScale : ℚ
  order : Int
  isPublished : Bool
  classroomId : String
  createdById : String
  createdAt : String
  updatedAt : String
  deriving DecidableEq, Repr

structure DB where
  users : List User
  classrooms : List Classroom
  enrollments : List Enrollment
  materials : List Material
  deriving DecidableEq, Repr

def DB.empty : DB := { users := [], classrooms := [], enrollments := [], materials := [] }

/-- Request body of POST /auth/register. -/
structure UserCreate where
  email : String
  password : String
  name : String
  role : String
  deriving DecidableEq, Repr

/-- Request body of PATCH /auth/profile; none means the field was absent. -/
structure UserUpdate where
  name : Option String
  avatar : Option String
  deriving DecidableEq, Repr

structure PasswordChange where
  currentPassword : String
  newPassword : String
  deriving DecidableEq, Repr

structure ClassroomCreate where
  name : String
  description : Option String
  subject : String
  coverImage : Option String
  deriving DecidableEq, Repr

structure ClassroomUpdate where
  name : Option String
  description : Option String
  subject : Option String
  coverImage : Option String
  isActive : Option Bool
  deriving DecidableEq, Repr

structure MaterialCreate where
  title : String
  description : Option String
  type : String
  content : Option String
  fileUrl : Option String
  fileName : Option String
  videoUrl : Option String
  modelUrl : Option String
  arEnabled : Option Bool
  modelScale : Option ℚ
  isPublished : Option Bool
  deriving DecidableEq, Repr

structure MaterialUpdate where
  title : Option String
  description : Option String
  type : Option String
  content : Option String
  fileUrl : Option String
  fileName : Option String
  videoUrl : Option String
  modelUrl : Option String
  arEnabled : Option Bool
  modelScale : Option ℚ
  isPublished : Option Bool
  order : Option Int
  deriving DecidableEq, Repr

/-- Decoded JWT payload as built by create_token. -/
structure TokenPayload where
  sub : String
  email : String
  role : String
  exp : Nat
  deriving DecidableEq, Repr

/-- Result of a request handler: response payload, HTTPException, or an
unhandled exception / unterminated retry loop. -/
inductive Outcome (α : Type) where
  | ok (val : α)
  | err (status : Nat) (detail : String)
  | crash
  deriving DecidableEq, Repr

/-- Mongo update_one: rewrite the first element satisfying p. -/
def updateFirst {α : Type} (p : α → Bool) (f : α → α) : List α → List α
  | [] => []
  | x :: xs => if p x then f x :: xs else x :: updateFirst p f xs

/-- Python truthiness of an optional string: present and nonempty. -/
def truthy : Option String → Bool
  | some s => !(s == "")
  | none => false

/-- Python str.upper for the code normalization in join_classroom. -/
def upperStr (s : String) : String := String.mk (s.data.map Char.toUpper)

def JWT_EXPIRATION_HOURS : Nat := 24

/-- Population string.ascii_uppercase + string.digits used by generate_code. -/
def codeAlphabet : List Char := "ABCDEFGHIJKLMNOPQRSTUVWXYZ0123456789".data

/-- One call of generate_code: six random draws from the 36-letter population. -/
def generate_code (r : Fin 6 → Fin 36) : String :=
  String.mk ((List.finRange 6).map (fun i => codeAlphabet.getD (r i).val 'A'))

/-- create_token: payload {sub, email, role, exp} with a 24-hour expiry. -/
def create_token (user_id email role : String) (nowSec : Nat) : TokenPayload :=
  { sub := user_id, email := email, role := role,
    exp := nowSec + JWT_EXPIRATION_HOURS * 3600 }

/-- get_current_user: validate expiry, then look the subject up in db.users. -/
def get_current_user (token : TokenPayload) (nowSec : Nat) (db : DB) : Outcome User :=
  if token.exp ≤ nowSec then .err 401 "Token expired"
  else
    match db.users.find? (fun u => u.id == token.sub) with
    | none => .err 401 "User not found"
    | some u => .ok u

/-- POST /auth/register. -/
def register (data : UserCreate) (user_id pwHash now : String) (nowSec : Nat)
    (db : DB) : Outcome ((User × TokenPayload) × DB) :=
  match db.users.find? (fun u => u.email == data.email) with
  | some _ => .err 400 "Email already registered"
  | none =>
    if data.role = UserRole.TEACHER ∨ data.role = UserRole.STUDENT then
      let user : User :=
        { id := user_id, email := data.email, password := pwHash,
          name := data.name, role := data.role, avatar := none,
          createdAt := now, updatedAt := now }
      let token := create_token user_id data.email data.role nowSec
      .ok ((user, token), { db with users := db.users ++ [user] })
    else .err 400 "Invalid role"

/-- Fields placed into update_data by update_profile: the name field under a
Python truthiness check, the avatar field under an is-not-None check; the
resulting $set also refreshes updatedAt. -/
def applyProfile (data : UserUpdate) (now : String) (u0 : User) : User :=
  let u1 := match data.name with
    | some v => if truthy data.name then { u0 with name := v } else u0
    | none => u0
  let u2 := match data.avatar with
    | some v => { u1 with avatar := some v }
    | none => u1
  if truthy data.name || data.avatar.isSome then { u2 with updatedAt := now } else u2

/-- PATCH /auth/profile. -/
def update_profile (data : UserUpdate) (user : User) (now : String) (db : DB) :
    Outcome (User × DB) :=
  let hasUpdate := truthy data.name || data.avatar.isSome
  let users2 :=
    if hasUpdate
    then updateFirst (fun u => u.id == user.id) (applyProfile data now) db.users
    else db.users
  match users2.find? (fun u => u.id == user.id) with
  | none => .crash
  | some u2 => .ok (u2, { db with users := users2 })

/-- POST /auth/change-password. The bcrypt check of currentPassword against the
stored hash is abstracted by the boolean verifyOk, the new bcrypt hash by
newHash. -/
def change_password (user : User) (verifyOk : Bool) (newHash now : String)
    (db : DB) : Outcome (String × DB) :=
  if !verifyOk then .err 400 "Current password is incorrect"
  else
    let users2 := updateFirst (fun u => u.id == user.id)
      (fun u => { u with password := newHash, updatedAt := now }) db.users
    .ok ("Password changed successfully", { db with users := users2 })

/-- POST /classrooms. The randoms list models the successive draws of the
code-regeneration loop; the loop takes the first generated code no existing
classroom holds. -/
def create_classroom (data : ClassroomCreate) (user : User)
    (classroom_id now : String) (randoms : List (Fin 6 → Fin 36)) (db : DB) :
    Outcome (Classroom × DB) :=
  if user.role ≠ UserRole.TEACHER then .err 403 "Only teachers can create classrooms"
  else
    match (randoms.map generate_code).find?
        (fun c => (db.classrooms.find? (fun k => k.code == c)).isNone) with
    | none => .crash
    | some code =>
      let doc : Classroom :=
        { id := classroom_id, name := data.name, description := data.description,
          subject := data.subject, code := code, coverImage := data.coverImage,
          isActive := true, teacherId := user.id, createdAt := now, updatedAt := now }
      .ok (doc, { db with classrooms := db.classrooms ++ [doc] })

/-- GET /classrooms/id. -/
def get_classroom (id : String) (user : User) (db : DB) : Outcome Classroom :=
  match db.classrooms.find? (fun c => c.id == id) with
  | none => .err 404 "Classroom not found"
  | some classroom =>
    if user.role == UserRole.TEACHER then
      if classroom.teacherId ≠ user.id then .err 403 "Not authorized"
      else .ok classroom
    else
      match db.enrollments.find?
          (fun e => e.studentId == user.id && e.classroomId == id) with
      | none => .err 403 "Not enrolled in this classroom"
      | some _ => .ok classroom

/-- Fields placed into update_data by update_classroom: every field present
(is not None) in the request body, plus updatedAt; applied as one $set. -/
def classroomUpdateHas (data : ClassroomUpdate) : Bool :=
  data.name.isSome || data.description.isSome ||
    data.subject.isSome || data.coverImage.isSome || data.isActive.isSome

def applyClassroomUpdate (data : ClassroomUpdate) (now : String) (c : Classroom) :
    Classroom :=
  { c with
    name := data.name.getD c.name,
    description := (match data.description with
      | some v => some v
      | none => c.description),
    subject := data.subject.getD c.subject,
    coverImage := (match data.coverImage with
      | some v => some v
      | none => c.coverImage),
    isActive := data.isActive.getD c.isActive,
    updatedAt := now }

/-- PUT /classrooms/id. -/
def update_classroom (id : String) (data : ClassroomUpdate) (user : User)
    (now : String) (db : DB) : Outcome (Classroom × DB) :=
  match db.classrooms.find? (fun c => c.id == id) with
  | none => .err 404 "Classroom not found"
  | some classroom =>
    if classroom.teacherId ≠ user.id then .err 403 "Not authorized"
    else
      let classrooms2 :=
        if classroomUpdateHas data
        then updateFirst (fun c => c.id == id) (applyClassroomUpdate data now) db.classrooms
        else db.classrooms
      match classrooms2.find? (fun c => c.id == id) with
      | none => .crash
      | some c2 => .ok (c2, { db with classrooms := classrooms2 })

/-- DELETE /classrooms/id: cascade over enrollments and materials, then the
classroom itself. -/
def delete_classroom (id : String) (user : User) (db : DB) : Outcome (String × DB) :=
  match db.classrooms.find? (fun c => c.id == id) with
  | none => .err 404 "Classroom not found"
  | some classroom =>
    if classroom.teacherId ≠ user.id then .err 403 "Not authorized"
    else
      .ok ("Classroom deleted",
        { db with
          enrollments := db.enrollments.filter (fun e => !(e.classroomId == id)),
          materials := db.materials.filter (fun m => !(m.classroomId == id)),
          classrooms := db.classrooms.eraseP (fun c => c.id == id) })

/-- POST /classrooms/join. -/
def join_classroom (code : String) (user : User) (enrollment_id now : String)
    (db : DB) : Outcome (Classroom × DB) :=
  if user.role ≠ UserRole.STUDENT then .err 403 "Only students can join classrooms"
  else
    match db.classrooms.find? (fun c => c.code == upperStr code) with
    | none => .err 404 "Invalid classroom code"
    | some classroom =>
      if !classroom.isActive then .err 400 "Classroom is not active"
      else
        match db.enrollments.find?
            (fun e => e.studentId == user.id && e.classroomId == classroom.id) with
        | some _ => .err 400 "Already enrolled in this classroom"
        | none =>
          let e : Enrollment :=
            { id := enrollment_id, studentId := user.id,
              classroomId := classroom.id, joinedAt := now }
          .ok (classroom, { db with enrollments := db.enrollments ++ [e] })

/-- DELETE /classrooms/id/leave: delete_one, then the deleted_count test. -/
def leave_classroom (id : String) (user : User) (db : DB) : Outcome (String × DB) :=
  if user.role ≠ UserRole.STUDENT then .err 403 "Only students can leave classrooms"
  else
    if (db.enrollments.find?
          (fun e => e.studentId == user.id && e.classroomId == id)).isNone then
      .err 404 "Not enrolled in this classroom"
    else
      .ok ("Left classroom",
        { db with enrollments :=
            (db.enrollments.eraseP
              (fun e => e.studentId == user.id && e.classroomId == id)) })

/-- GET /materials/classroom/classroomId: the query filters by classroom and,
for the STUDENT role, by isPublished; results are sorted ascending by order
and to_list(100) returns at most the first 100 documents of the cursor. -/
def get_materials (classroomId : String) (user : User) (db : DB) :
    Outcome (List Material) :=
  match db.classrooms.find? (fun c => c.id == classroomId) with
  | none => .err 404 "Classroom not found"
  | some classroom =>
    let query : Material → Bool := fun m =>
      m.classroomId == classroomId &&
        (if user.role == UserRole.STUDENT then m.isPublished else true)
    let materials :=
      (List.insertionSort (fun a b => a.order ≤ b.order)
        (db.materials.filter query)).take 100
    if user.role == UserRole.TEACHER then
      if classroom.teacherId ≠ user.id then .err 403 "Not authorized"
      else .ok materials
    else
      match db.enrollments.find?
          (fun e => e.studentId == user.id && e.classroomId == classroomId) with
      | none => .err 403 "Not enrolled"
      | some _ => .ok materials

/-- GET /materials/id. In the TEACHER branch the owning classroom is
subscripted without a missing-document check. -/
def get_material (id : String) (user : User) (db : DB) : Outcome Material :=
  match db.materials.find? (fun m => m.id == id) with
  | none => .err 404 "Material not found"
  | some material =>
    let classFound := db.classrooms.find? (fun c => c.id == material.classroomId)
    if user.role == UserRole.TEACHER then
      match classFound with
      | none => .crash
      | some classroom =>
        if classroom.teacherId ≠ user.id then .err 403 "Not authorized"
        else .ok material
    else
      let enrollment := db.enrollments.find?
        (fun e => e.studentId == user.id && e.classroomId == material.classroomId)
      if enrollment.isNone || !material.isPublished then .err 403 "Not authorized"
      else .ok material

/-- POST /materials/classroom/classroomId. The max?-based next order mirrors
find_one sorted descending by order. -/
def create_material (classroomId : String) (data : MaterialCreate) (user : User)
    (material_id now : String) (db : DB) : Outcome (Material × DB) :=
  match db.classrooms.find? (fun c => c.id == classroomId) with
  | none => .err 404 "Classroom not found"
  | some classroom =>
    if classroom.teacherId ≠ user.id then .err 403 "Not authorized"
    else
      if data.type = MaterialType.TEXT ∨ data.type = MaterialType.FILE ∨
          data.type = MaterialType.VIDEO ∨ data.type = MaterialType.MODEL3D then
        let next_order : Int :=
          match ((db.materials.filter (fun m => m.classroomId == classroomId)).map
              (fun m => m.order)).max? with
          | some o => o + 1
          | none => 1
        let doc : Material :=
          { id := material_id, title := data.title, description := data.description,
            type := data.type, content := data.content, fileUrl := data.fileUrl,
            fileName := data.fileName, videoUrl := data.videoUrl,
            modelUrl := data.modelUrl, arEnabled := data.arEnabled.getD true,
            modelScale := data.modelScale.getD 1, order := next_order,
            isPublished := data.isPublished.getD true, classroomId := classroomId,
            createdById := user.id, createdAt := now, updatedAt := now }
        .ok (doc, { db with materials := db.materials ++ [doc] })
      else .err 400 "Invalid material type"

/-- Fields placed into update_data by update_material: every field of the
mutable set present (is not None) in the request body, plus updatedAt;
applied as one $set. -/
def materialUpdateHas (data : MaterialUpdate) : Bool :=
  data.title.isSome || data.description.isSome ||
    data.type.isSome || data.content.isSome || data.fileUrl.isSome ||
    data.fileName.isSome || data.videoUrl.isSome || data.modelUrl.isSome ||
    data.arEnabled.isSome || data.modelScale.isSome ||
    data.isPublished.isSome || data.order.isSome

def applyMaterialUpdate (data : MaterialUpdate) (now : String) (m : Material) :
    Material :=
  { m with
    title := data.title.getD m.title,
    description := (match data.description with
      | some v => some v
      | none => m.description),
    type := data.type.getD m.type,
    content := (match data.content with
      | some v => some v
      | none => m.content),
    fileUrl := (match data.fileUrl with
      | some v => some v
      | none => m.fileUrl),
    fileName := (match data.fileName with
      | some v => some v
      | none => m.fileName),
    videoUrl := (match data.videoUrl with
      | some v => some v
      | none => m.videoUrl),
    modelUrl := (match data.modelUrl with
      | some v => some v
      | none => m.modelUrl),
    arEnabled := data.arEnabled.getD m.arEnabled,
    modelScale := data.modelScale.getD m.modelScale,
    isPublished := data.isPublished.getD m.isPublished,
    order := data.order.getD m.order,
    updatedAt := now }

/-- PUT /materials/id. The owning classroom is subscripted without a
missing-document check. -/
def update_material (id : String) (data : MaterialUpdate) (user : User)
    (now : String) (db : DB) : Outcome (Material × DB) :=
  match db.materials.find? (fun m => m.id == id) with
  | none => .err 404 "Material not found"
  | some material =>
    match db.classrooms.find? (fun c => c.id == material.classroomId) with
    | none => .crash
    | some classroom =>
      if classroom.teacherId ≠ user.id then .err 403 "Not authorized"
      else
        let materials2 :=
          if materialUpdateHas data
          then updateFirst (fun m => m.id == id) (applyMaterialUpdate data now) db.materials
          else db.materials
        match materials2.find? (fun m => m.id == id) with
        | none => .crash
        | some m2 => .ok (m2, { db with materials := materials2 })

/-- DELETE /materials/id. The owning classroom is subscripted without a
missing-document check. -/
def delete_material (id : String) (user : User) (db : DB) : Outcome (String × DB) :=
  match db.materials.find? (fun m => m.id == id) with
  | none => .err 404 "Material not found"
  | some material =>
    match db.classrooms.find? (fun c => c.id == material.classroomId) with
    | none => .crash
    | some classroom =>
      if classroom.teacherId ≠ user.id then .err 403 "Not authorized"
      else
        .ok ("Material deleted",
          { db with materials := db.materials.eraseP (fun m => m.id == id) })

/-- POST /materials/classroom/classroomId/reorder: one update_one per listed
id, setting order to index + 1, with no classroom-membership check on the ids. -/
def reorder_materials (classroomId : String) (materialIds : List String)
    (user : User) (db : DB) : Outcome (String × DB) :=
  match db.classrooms.find? (fun c => c.id == classroomId) with
  | none => .err 404 "Classroom not found"
  | some classroom =>
    if classroom.teacherId ≠ user.id then .err 403 "Not authorized"
    else
      let materials2 := materialIds.enum.foldl
        (fun acc p =>
          updateFirst (fun m => m.id == p.2)
            (fun m => { m with order := (p.1 : Int) + 1 }) acc)
        db.materials
      .ok ("Materials reordered", { db with materials := materials2 })

/-! Fixtures: concrete records used by witnesses and counterexamples. -/

def c3data : UserCreate :=
  { email := "tina@example.com", password := "pw", name := "Tina", role := "TEACHER" }

def c3user : User :=
  { id := "u1", email := "tina@example.com", password := "h1", name := "Tina",
    role := "TEACHER", avatar := none, createdAt := "d0", updatedAt := "d0" }

def c3tok : TokenPayload :=
  { sub := "u1", email := "tina@example.com", role := "TEACHER", exp := 86400 }

def c3db : DB := { users := [c3user], classrooms := [], enrollments := [], materials := [] }

def jStudentA : User :=
  { id := "s1", email := "a@example.com", password := "h2", name := "Ana",
    role := "STUDENT", avatar := none, createdAt := "d0", updatedAt := "d0" }

def jStudentB : User :=
  { id := "s2", email := "b@example.com", password := "h3", name := "Bo",
    role := "STUDENT", avatar := none, createdAt := "d0", updatedAt := "d0" }

def jRoom : Classroom :=
  { id := "c1", name := "Biology 101", description := none, subject := "Science",
    code := "K3F9QZ", coverImage := none, isActive := true, teacherId := "u1",
    createdAt := "d0", updatedAt := "d0" }

def jdb0 : DB :=
  { users := [c3user, jStudentA, jStudentB], classrooms := [jRoom],
    enrollments := [], materials := [] }

def jdb1 : DB := { jdb0 with enrollments := [⟨"e1", "s1", "c1", "t1"⟩] }

def jdb2 : DB :=
  { jdb0 with enrollments := [⟨"e1", "s1", "c1", "t1"⟩, ⟨"e3", "s2", "c1", "t3"⟩] }

instance : IsTotal Material (fun a b => a.order ≤ b.order) :=
  ⟨fun a b => Int.le_total a.order b.order⟩

instance : IsTrans Material (fun a b => a.order ≤ b.order) :=
  ⟨fun _ _ _ hab hbc => le_trans hab hbc⟩

def mUnpub : Material :=
  { id := "m1", title := "Draft", description := none, type := "TEXT",
    content := some "wip", fileUrl := none, fileName := none, videoUrl := none,
    modelUrl := none, arEnabled := true, modelScale := 1, order := 1,
    isPublished := false, classroomId := "c1", createdById := "u1",
    createdAt := "d0", updatedAt := "d0" }

def mPub : Material :=
  { id := "m2", title := "Lesson", description := none, type := "TEXT",
    content := some "go", fileUrl := none, fileName := none, videoUrl := none,
    modelUrl := none, arEnabled := true, modelScale := 1, order := 2,
    isPublished := true, classroomId := "c1", createdById := "u1",
    createdAt := "d0", updatedAt := "d0" }

def mdb : DB :=
  { users := [c3user, jStudentA], classrooms := [jRoom],
    enrollments := [⟨"e1", "s1", "c1", "t1"⟩], materials := [mUnpub, mPub] }

def cmData : MaterialCreate :=
  { title := "New", description := none, type := "TEXT", content := some "hi",
    fileUrl := none, fileName := none, videoUrl := none, modelUrl := none,
    arEnabled := none, modelScale := none, isPublished := none }

def rm1 : Material := { mPub with id := "m1", order := 1 }

def rm2 : Material := { mPub with id := "m2", order := 2 }

def rm3 : Material := { mPub with id := "m3", order := 3 }

def rdb : DB :=
  { users := [c3user], classrooms := [jRoom], enrollments := [],
    materials := [rm1, rm2, rm3] }

def rdb2 : DB :=
  { rdb with materials :=
    [{ rm1 with order := 2 }, { rm2 with order := 3 }, { rm3 with order := 1 }] }

def profUser : User :=
  { id := "p1", email := "alice@example.com", password := "h4", name := "Alice",
    role := "STUDENT", avatar := none, createdAt := "d0", updatedAt := "d0" }

def profDb : DB :=
  { users := [profUser], classrooms := [], enrollments := [], materials := [] }

def pData : UserUpdate := { name := some "Zoe", avatar := some "pic.png" }

def mu0 : MaterialUpdate :=
  { title := some "T2", description := none, type := none, content := none,
    fileUrl := none, fileName := none, videoUrl := none, modelUrl := none,
    arEnabled := none, modelScale := none, isPublished := none, order := none }

def mDangling : Material := { mPub with id := "m9", classroomId := "ghost" }

def dangDb : DB :=
  { users := [c3user, jStudentA], classrooms := [jRoom],
    enrollments := [⟨"e9", "s1", "ghost", "t1"⟩], materials := [mDangling] }

def cdelDb : DB :=
  { users := [c3user, jStudentA], classrooms := [],
    enrollments := [], materials := [] }

/-- Materials of one classroom, as queried by the per-classroom operations. -/
def classMaterials (db : DB) (cid : String) : List Material :=
  db.materials.filter (fun m => m.classroomId == cid)

/-- The spec invariant: the order values of a classroom are exactly 1..N for
its N materials (as a multiset). -/
def denseOrders (db : DB) (cid : String) : Prop :=
  (((classMaterials db cid).map (fun m => m.order) : List Int) : Multiset Int) =
    (((List.range (classMaterials db cid).length).map
      (fun i : Nat => (i : Int) + 1) : List Int) : Multiset Int)

instance (db : DB) (cid : String) : Decidable (denseOrders db cid) := by
  unfold denseOrders
  infer_instance

def rdbDel : DB := { rdb with materials := [rm2, rm3] }

/-- One successful mutating API call, as a transition between database
states. The hid hypothesis on create_classroom records that the uuid primary
key is fresh, which the unique index on classrooms.id enforces at the storage
layer (a duplicate insert_one would raise instead of succeeding). -/
inductive Step : DB → DB → Prop where
  | register (data : UserCreate) (user_id pwHash now : String) (nowSec : Nat)
      (db : DB) (res : User × TokenPayload) (db2 : DB)
      (h : register data user_id pwHash now nowSec db = .ok (res, db2)) :
      Step db db2
  | update_profile (data : UserUpdate) (user : User) (now : String) (db : DB)
      (res : User) (db2 : DB)
      (h : update_profile data user now db = .ok (res, db2)) : Step db db2
  | change_password (user : User) (verifyOk : Bool) (newHash now : String)
      (db : DB) (msg : String) (db2 : DB)
      (h : change_password user verifyOk newHash now db = .ok (msg, db2)) :
      Step db db2
  | create_classroom (data : ClassroomCreate) (user : User)
      (classroom_id now : String) (randoms : List (Fin 6 → Fin 36)) (db : DB)
      (c : Classroom) (db2 : DB)
      (hid : (db.classrooms.find? (fun x => x.id == classroom_id)).isNone = true)
      (h : create_classroom data user classroom_id now randoms db = .ok (c, db2)) :
      Step db db2
  | update_classroom (id : String) (data : ClassroomUpdate) (user : User)
      (now : String) (db : DB) (c : Classroom) (db2 : DB)
      (h : update_classroom id data user now db = .ok (c, db2)) : Step db db2
  | delete_classroom (id : String) (user : User) (db : DB) (msg : String)
      (db2 : DB) (h : delete_classroom id user db = .ok (msg, db2)) : Step db db2
  | join_classroom (code : String) (user : User) (eid now : String) (db : DB)
      (c : Classroom) (db2 : DB)
      (h : join_classroom code user eid now db = .ok (c, db2)) : Step db db2
  | leave_classroom (id : String) (user : User) (db : DB) (msg : String)
      (db2 : DB) (h : leave_classroom id user db = .ok (msg, db2)) : Step db db2
  | create_material (cid : String) (data : MaterialCreate) (user : User)
      (mid now : String) (db : DB) (doc : Material) (db2 : DB)
      (h : create_material cid data user mid now db = .ok (doc, db2)) :
      Step db db2
  | update_material (id : String) (data : MaterialUpdate) (user : User)
      (now : String) (db : DB) (m2 : Material) (db2 : DB)
      (h : update_material id data user now db = .ok (m2, db2)) : Step db db2
  | delete_material (id : String) (user : User) (db : DB) (msg : String)
      (db2 : DB) (h : delete_material id user db = .ok (msg, db2)) : Step db db2
  | reorder_materials (cid : String) (ids : List String) (user : User)
      (db : DB) (msg : String) (db2 : DB)
      (h : reorder_materials cid ids user db = .ok (msg, db2)) : Step db db2

/-- States reachable from the empty database through successful API calls. -/
def Reachable (db : DB) : Prop := Relation.ReflTransGen Step DB.empty db

/-- The classroom invariant of the spec: every code is six characters over
the uppercase-alphanumeric population, codes are globally unique, and ids
are unique. -/
def ClassroomInv (db : DB) : Prop :=
  (∀ c ∈ db.classrooms, c.code.length = 6 ∧ ∀ ch ∈ c.code.data, ch ∈ codeAlphabet) ∧
  (db.classrooms.map (fun c => c.code)).Nodup ∧
  (db.classrooms.map (fun c => c.id)).Nodup

def ccData : ClassroomCreate :=
  { name := "Biology 101", description := none, subject := "Science",
    coverImage := none }

def r0 : Fin 6 → Fin 36 := fun _ => (0 : Fin 36)

def wRoom : Classroom :=
  { id := "c1", name := "Biology 101", description := none, subject := "Science",
    code := "AAAAAA", coverImage := none, isActive := true, teacherId := "u1",
    createdAt := "d0", updatedAt := "d0" }

def wdb : DB :=
  { users := [c3user], classrooms := [wRoom], enrollments := [], materials := [] }

def bigPub (i : Nat) : Material :=
  { mPub with id := toString i, order := (i : Int) + 1 }

def bigMany : List Material := (List.range 100).map bigPub

def bigUnpub : Material := { mUnpub with id := "m101", order := 101 }

def bigDb : DB :=
  { users := [c3user, jStudentA], classrooms := [jRoom],
    enrollments := [⟨"e1", "s1", "c1", "t1"⟩],
    materials := bigMany ++ [bigUnpub] }

/-! Claim C3 -/

/-- C3: for every valid registration (fresh email, role in TEACHER/STUDENT),
the token returned by register, passed to get_current_user before it expires,
resolves to the same user id that register created. The hid hypothesis models
uuid freshness (backed by the unique index on users.id). -/
theorem register_token_resolves_same_user
    (data : UserCreate) (user_id pwHash now : String) (nowSec nowSec2 : Nat)
    (db : DB) (u : User) (tok : TokenPayload) (db2 : DB)
    (hok : register data user_id pwHash now nowSec db = .ok ((u, tok), db2))
    (hid : db.users.find? (fun x => x.id == user_id) = none)
    (htime : nowSec2 < nowSec + JWT_EXPIRATION_HOURS * 3600) :
    get_current_user tok nowSec2 db2 = .ok u ∧ u.id = user_id := by
  unfold register at hok
  split at hok
  · exact Outcome.noConfusion hok
  · split at hok
    · simp only [Outcome.ok.injEq, Prod.mk.injEq] at hok
      obtain ⟨⟨hu, ht⟩, hdb⟩ := hok
      subst hu ht hdb
      refine ⟨?_, rfl⟩
      have hexp : ¬ (create_token user_id data.email data.role nowSec).exp ≤ nowSec2 := by
        simp only [create_token]
        omega
      simp only [get_current_user, create_token, if_neg hexp, List.find?_append, hid,
        Option.none_or]
      simp
      exact htime
    · exact Outcome.noConfusion hok

/-- C3 witness: a concrete registration on the empty database whose token
authenticates back to the created user. -/
theorem register_token_resolves_same_user_witness :
    get_current_user c3tok 100 c3db = .ok c3user ∧ c3user.id = "u1" :=
  register_token_resolves_same_user c3data "u1" "h1" "d0" 0 100 DB.empty
    c3user c3tok c3db (by decide) (by decide) (by decide)

/-! Claim C2 -/

/-- Inversion of a successful join: the caller is a student, the classroom was
found by the uppercased code and is active, no enrollment existed, and exactly
one enrollment record was appended. -/
theorem join_ok_inv {code : String} {user : User} {eid now : String} {db : DB}
    {c : Classroom} {db2 : DB}
    (hok : join_classroom code user eid now db = .ok (c, db2)) :
    user.role = UserRole.STUDENT ∧
    db.classrooms.find? (fun x => x.code == upperStr code) = some c ∧
    c.isActive = true ∧
    db.enrollments.find?
      (fun x => x.studentId == user.id && x.classroomId == c.id) = none ∧
    db2 = { db with enrollments := db.enrollments ++
      [{ id := eid, studentId := user.id, classroomId := c.id, joinedAt := now }] } := by
  unfold join_classroom at hok
  split at hok
  · exact Outcome.noConfusion hok
  · rename_i hrole
    split at hok
    · exact Outcome.noConfusion hok
    · rename_i c0 hfind
      split at hok
      · exact Outcome.noConfusion hok
      · rename_i hact
        split at hok
        · exact Outcome.noConfusion hok
        · rename_i henr
          simp only [Outcome.ok.injEq, Prod.mk.injEq] at hok
          obtain ⟨hc, hdb⟩ := hok
          subst hc
          refine ⟨by simpa using hrole, hfind, by simpa using hact, henr, hdb.symm⟩

/-- C2: join requires role STUDENT, looks the classroom up by the uppercased
code, fails NotFound when no classroom holds it, InactiveClassroom when it is
inactive, AlreadyEnrolled when an enrollment for (user, classroom) exists, and
otherwise appends exactly one enrollment; after a success, a repeat join by the
same student fails with AlreadyEnrolled while a first join by a different
student still succeeds. -/
theorem join_classroom_spec (code : String) (user : User) (eid now : String) (db : DB) :
    (user.role ≠ UserRole.STUDENT →
      join_classroom code user eid now db =
        .err 403 "Only students can join classrooms") ∧
    (user.role = UserRole.STUDENT →
      db.classrooms.find? (fun c => c.code == upperStr code) = none →
      join_classroom code user eid now db = .err 404 "Invalid classroom code") ∧
    (∀ c, user.role = UserRole.STUDENT →
      db.classrooms.find? (fun x => x.code == upperStr code) = some c →
      c.isActive = false →
      join_classroom code user eid now db = .err 400 "Classroom is not active") ∧
    (∀ c e, user.role = UserRole.STUDENT →
      db.classrooms.find? (fun x => x.code == upperStr code) = some c →
      c.isActive = true →
      db.enrollments.find?
        (fun x => x.studentId == user.id && x.classroomId == c.id) = some e →
      join_classroom code user eid now db =
        .err 400 "Already enrolled in this classroom") ∧
    (∀ c, user.role = UserRole.STUDENT →
      db.classrooms.find? (fun x => x.code == upperStr code) = some c →
      c.isActive = true →
      db.enrollments.find?
        (fun x => x.studentId == user.id && x.classroomId == c.id) = none →
      join_classroom code user eid now db = .ok (c,
        { db with enrollments := db.enrollments ++
          [{ id := eid, studentId := user.id, classroomId := c.id, joinedAt := now }] })) ∧
    (∀ c db2, join_classroom code user eid now db = .ok (c, db2) →
      ∀ eid2 now2, join_classroom code user eid2 now2 db2 =
        .err 400 "Already enrolled in this classroom") ∧
    (∀ c db2 u2, join_classroom code user eid now db = .ok (c, db2) →
      u2.role = UserRole.STUDENT → u2.id ≠ user.id →
      db.enrollments.find?
        (fun x => x.studentId == u2.id && x.classroomId == c.id) = none →
      ∀ eid2 now2, join_classroom code u2 eid2 now2 db2 = .ok (c,
        { db2 with enrollments := db2.enrollments ++
          [{ id := eid2, studentId := u2.id, classroomId := c.id, joinedAt := now2 }] })) := by
  refine ⟨?_, ?_, ?_, ?_, ?_, ?_, ?_⟩
  · intro h
    unfold join_classroom
    rw [if_pos h]
  · intro hrole hfind
    unfold join_classroom
    rw [if_neg (by simp [hrole]), hfind]
  · intro c hrole hfind hact
    unfold join_classroom
    rw [if_neg (by simp [hrole]), hfind]
    simp [hact]
  · intro c e hrole hfind hact henr
    unfold join_classroom
    rw [if_neg (by simp [hrole]), hfind]
    simp [hact, henr]
  · intro c hrole hfind hact henr
    unfold join_classroom
    rw [if_neg (by simp [hrole]), hfind]
    simp [hact, henr]
  · intro c db2 hok eid2 now2
    obtain ⟨hrole, hfind, hact, henr, hdb⟩ := join_ok_inv hok
    subst hdb
    unfold join_classroom
    rw [if_neg (by simp [hrole])]
    simp [hfind, hact, List.find?_append, henr]
  · intro c db2 u2 hok hrole2 hne henr2 eid2 now2
    obtain ⟨hrole, hfind, hact, henr, hdb⟩ := join_ok_inv hok
    subst hdb
    unfold join_classroom
    rw [if_neg (by simp [hrole2])]
    simp [hfind, hact, List.find?_append, henr2, Ne.symm hne]

/-- C2 witness: student A joins with a lowercase code, a second join by A
fails with AlreadyEnrolled, and a first join by student B still succeeds. -/
theorem join_classroom_spec_witness :
    join_classroom "k3f9qz" jStudentA "e1" "t1" jdb0 = .ok (jRoom, jdb1) ∧
    join_classroom "k3f9qz" jStudentA "e2" "t2" jdb1 =
      .err 400 "Already enrolled in this classroom" ∧
    join_classroom "k3f9qz" jStudentB "e3" "t3" jdb1 = .ok (jRoom, jdb2) := by
  refine ⟨?_, ?_, ?_⟩
  · have h := (join_classroom_spec "k3f9qz" jStudentA "e1" "t1" jdb0).2.2.2.2.1
      jRoom (by decide) (by decide) (by decide) (by decide)
    exact h.trans (by decide)
  · exact (join_classroom_spec "k3f9qz" jStudentA "e1" "t1" jdb0).2.2.2.2.2.1
      jRoom jdb1 (by decide) "e2" "t2"
  · have h := (join_classroom_spec "k3f9qz" jStudentB "e3" "t3" jdb1).2.2.2.2.1
      jRoom (by decide) (by decide) (by decide) (by decide)
    exact h.trans (by decide)

/-! Claim C1 -/

/-- C1 counterexample: with 100 published materials of lower order in the
classroom, the to_list(100) cap truncates the teacher list before the
unpublished material, so the owning teacher cannot retrieve it through list. -/
theorem teacher_list_cap_omits_unpublished :
    bigUnpub.isPublished = false ∧ bigUnpub.classroomId = "c1" ∧
    jRoom.teacherId = c3user.id ∧ bigUnpub ∈ bigDb.materials ∧
    get_materials "c1" c3user bigDb = .ok bigMany ∧ bigUnpub ∉ bigMany := by
  decide

/-- C1 amended: a student enrolled in the classroom can neither get nor list
an unpublished material of that classroom (get is Forbidden, list omits it),
the owning teacher can always get it, and for students list returns only
published materials sorted ascending by order; list returns at most the first
100 materials by order, so the teacher list contains the unpublished material
whenever the classroom holds at most 100 materials. -/
theorem student_cannot_access_unpublished
    (cid mid : String) (u t : User) (db : DB) (c : Classroom) (m : Material)
    (e : Enrollment)
    (hc : db.classrooms.find? (fun x => x.id == cid) = some c)
    (hm : db.materials.find? (fun x => x.id == mid) = some m)
    (hmc : m.classroomId = cid)
    (hunpub : m.isPublished = false)
    (hrole : u.role = UserRole.STUDENT)
    (henr : db.enrollments.find?
      (fun x => x.studentId == u.id && x.classroomId == cid) = some e)
    (ht : t.role = UserRole.TEACHER)
    (hown : c.teacherId = t.id) :
    get_material mid u db = .err 403 "Not authorized" ∧
    (∃ L, get_materials cid u db = .ok L ∧ m ∉ L ∧
      (∀ x ∈ L, x.isPublished = true) ∧
      List.Sorted (fun a b => a.order ≤ b.order) L) ∧
    get_material mid t db = .ok m ∧
    ((db.materials.filter (fun x => x.classroomId == cid)).length ≤ 100 →
      ∃ L2, get_materials cid t db = .ok L2 ∧ m ∈ L2) := by
  refine ⟨?_, ?_, ?_, ?_⟩
  · unfold get_material
    simp only [hm, hmc, hrole, henr, hunpub]
    simp [UserRole.STUDENT, UserRole.TEACHER]
  · have hL : get_materials cid u db = .ok ((List.insertionSort
        (fun a b => a.order ≤ b.order)
        (db.materials.filter (fun x => x.classroomId == cid &&
          (if (u.role == UserRole.STUDENT) = true
            then x.isPublished else true)))).take 100) := by
      unfold get_materials
      rw [hc]
      simp [hrole, henr, UserRole.STUDENT, UserRole.TEACHER]
    refine ⟨_, hL, ?_, ?_, ?_⟩
    · intro hmem
      have hmem2 := List.take_subset 100 _ hmem
      simp only [List.mem_insertionSort, List.mem_filter] at hmem2
      obtain ⟨-, hq⟩ := hmem2
      rw [hrole] at hq
      simp [hunpub] at hq
    · intro x hx
      have hx2 := List.take_subset 100 _ hx
      simp only [List.mem_insertionSort, List.mem_filter] at hx2
      obtain ⟨-, hq⟩ := hx2
      rw [hrole] at hq
      simp at hq
      exact hq.2
    · exact List.Pairwise.sublist (List.take_sublist 100 _)
        (List.sorted_insertionSort (fun a b : Material => a.order ≤ b.order) _)
  · unfold get_material
    simp only [hm, hmc, hc, ht, hown]
    simp [UserRole.TEACHER]
  · intro hcount
    have hL2 : get_materials cid t db = .ok ((List.insertionSort
        (fun a b => a.order ≤ b.order)
        (db.materials.filter (fun x => x.classroomId == cid &&
          (if (t.role == UserRole.STUDENT) = true
            then x.isPublished else true)))).take 100) := by
      unfold get_materials
      rw [hc]
      simp [ht, hown, UserRole.STUDENT, UserRole.TEACHER]
    have hfeq : db.materials.filter (fun x => x.classroomId == cid &&
        (if (t.role == UserRole.STUDENT) = true then x.isPublished else true)) =
        db.materials.filter (fun x => x.classroomId == cid) := by
      apply List.filter_congr
      intro x _
      rw [ht]
      simp [UserRole.STUDENT, UserRole.TEACHER]
    have hlen : (List.insertionSort (fun a b : Material => a.order ≤ b.order)
        (db.materials.filter (fun x => x.classroomId == cid &&
          (if (t.role == UserRole.STUDENT) = true
            then x.isPublished else true)))).length ≤ 100 := by
      rw [(List.perm_insertionSort (fun a b : Material => a.order ≤ b.order)
        _).length_eq, hfeq]
      exact hcount
    refine ⟨_, hL2, ?_⟩
    rw [List.take_of_length_le hlen]
    simp only [List.mem_insertionSort, List.mem_filter]
    refine ⟨List.mem_of_find?_eq_some hm, ?_⟩
    rw [ht, hmc]
    simp [UserRole.STUDENT, UserRole.TEACHER]

/-- C1 witness: in a concrete two-material database, the enrolled student is
denied the unpublished material by get and list while the owning teacher sees
it through both operations, the cap hypothesis holding trivially. -/
theorem student_cannot_access_unpublished_witness :
    get_material "m1" jStudentA mdb = .err 403 "Not authorized" ∧
    (∃ L, get_materials "c1" jStudentA mdb = .ok L ∧ mUnpub ∉ L ∧
      (∀ x ∈ L, x.isPublished = true) ∧
      List.Sorted (fun a b => a.order ≤ b.order) L) ∧
    get_material "m1" c3user mdb = .ok mUnpub ∧
    (∃ L2, get_materials "c1" c3user mdb = .ok L2 ∧ mUnpub ∈ L2) := by
  have h := student_cannot_access_unpublished "c1" "m1" jStudentA c3user mdb
    jRoom mUnpub ⟨"e1", "s1", "c1", "t1"⟩ (by decide) (by decide) (by decide)
    (by decide) (by decide) (by decide) (by decide) (by decide)
  exact ⟨h.1, h.2.1, h.2.2.1, h.2.2.2 (by decide)⟩

/-! Claim C6 -/

/-- Unpacking of List.max? on integers: the result is a member bounding all
members. -/
theorem int_max?_spec {l : List Int} {a : Int} (h : l.max? = some a) :
    a ∈ l ∧ ∀ b ∈ l, b ≤ a := by
  haveI : Std.Antisymm ((· : Int) ≤ ·) := ⟨fun {x y} h1 h2 => le_antisymm h1 h2⟩
  exact (List.max?_eq_some_iff (fun x => le_refl x) (fun x y => max_choice x y)
    (fun _ _ _ => max_le_iff)).mp h

/-- C6: for a classroom owned by the caller, create_material rejects a type
outside TEXT/FILE/VIDEO/MODEL3D with InvalidType, and otherwise appends a
material whose order is the maximum existing order in the classroom plus one
(1 when the classroom has no materials), with defaults arEnabled true,
modelScale 1.0 and isPublished true applied when those fields are absent. -/
theorem create_material_order_and_defaults
    (cid : String) (data : MaterialCreate) (u : User) (mid now : String)
    (db : DB) (c : Classroom)
    (hc : db.classrooms.find? (fun x => x.id == cid) = some c)
    (hown : c.teacherId = u.id) :
    (¬(data.type = MaterialType.TEXT ∨ data.type = MaterialType.FILE ∨
        data.type = MaterialType.VIDEO ∨ data.type = MaterialType.MODEL3D) →
      create_material cid data u mid now db = .err 400 "Invalid material type") ∧
    ((data.type = MaterialType.TEXT ∨ data.type = MaterialType.FILE ∨
        data.type = MaterialType.VIDEO ∨ data.type = MaterialType.MODEL3D) →
      ∃ doc db2, create_material cid data u mid now db = .ok (doc, db2) ∧
        (db.materials.filter (fun m => m.classroomId == cid) = [] → doc.order = 1) ∧
        (db.materials.filter (fun m => m.classroomId == cid) ≠ [] →
          (∃ x ∈ db.materials.filter (fun m => m.classroomId == cid),
            doc.order = x.order + 1) ∧
          ∀ x ∈ db.materials.filter (fun m => m.classroomId == cid),
            x.order < doc.order) ∧
        (data.arEnabled = none → doc.arEnabled = true) ∧
        (data.modelScale = none → doc.modelScale = 1) ∧
        (data.isPublished = none → doc.isPublished = true) ∧
        db2.materials = db.materials ++ [doc] ∧ doc.classroomId = cid) := by
  constructor
  · intro hbad
    unfold create_material
    simp only [hc]
    rw [if_neg (by simp [hown])]
    rw [if_neg hbad]
  · intro hgood
    unfold create_material
    simp only [hc]
    rw [if_neg (by simp [hown])]
    rw [if_pos hgood]
    refine ⟨_, _, rfl, ?_, ?_, ?_, ?_, ?_, rfl, rfl⟩
    · intro h0
      simp [h0]
    · intro hne
      cases hmax : ((db.materials.filter (fun m => m.classroomId == cid)).map
          (fun m => m.order)).max? with
      | none =>
        rw [List.max?_eq_none_iff, List.map_eq_nil_iff] at hmax
        exact absurd hmax hne
      | some o =>
        obtain ⟨hmem, hub⟩ := int_max?_spec hmax
        obtain ⟨x, hx, hxo⟩ := List.mem_map.mp hmem
        constructor
        · exact ⟨x, hx, by simp [hmax, hxo]⟩
        · intro y hy
          have := hub y.order (List.mem_map.mpr ⟨y, hy, rfl⟩)
          simp [hmax]
          omega
    · intro h
      simp [h]
    · intro h
      simp [h]
    · intro h
      simp [h]

/-- C6 witness: creating a TEXT material with all optional fields absent in a
classroom whose materials have orders 1 and 2. -/
theorem create_material_order_and_defaults_witness :
    jRoom.teacherId = c3user.id ∧
    (∃ doc db2, create_material "c1" cmData c3user "m3" "d1" mdb = .ok (doc, db2) ∧
      (mdb.materials.filter (fun m => m.classroomId == "c1") = [] → doc.order = 1) ∧
      (mdb.materials.filter (fun m => m.classroomId == "c1") ≠ [] →
        (∃ x ∈ mdb.materials.filter (fun m => m.classroomId == "c1"),
          doc.order = x.order + 1) ∧
        ∀ x ∈ mdb.materials.filter (fun m => m.classroomId == "c1"),
          x.order < doc.order) ∧
      (cmData.arEnabled = none → doc.arEnabled = true) ∧
      (cmData.modelScale = none → doc.modelScale = 1) ∧
      (cmData.isPublished = none → doc.isPublished = true) ∧
      db2.materials = mdb.materials ++ [doc] ∧ doc.classroomId = "c1") :=
  ⟨by decide, (create_material_order_and_defaults "c1" cmData c3user "m3" "d1"
    mdb jRoom (by decide) (by decide)).2 (by decide)⟩

/-! Claim C7 -/

/-- When the ids in a material list are distinct, update_one by id coincides
with a pointwise map. -/
theorem updateFirst_id_eq_map (x : String) (f : Material → Material) :
    ∀ l : List Material, (l.map (fun m => m.id)).Nodup →
    updateFirst (fun m => m.id == x) f l =
      l.map (fun m => if m.id == x then f m else m) := by
  intro l
  induction l with
  | nil => intro _; rfl
  | cons m rest ih =>
    intro hnd
    simp only [List.map_cons, List.nodup_cons] at hnd
    by_cases h : (m.id == x) = true
    · have hstep : updateFirst (fun m => m.id == x) f (m :: rest) = f m :: rest := by
        simp [updateFirst, h]
      rw [hstep, List.map_cons, if_pos h]
      have hrest : rest.map (fun y => if y.id == x then f y else y) = rest.map id := by
        apply List.map_congr_left
        intro y hy
        have hyx : ¬ (y.id == x) = true := by
          simp only [beq_iff_eq]
          intro he
          apply hnd.1
          have hmx : m.id = x := beq_iff_eq.mp h
          rw [hmx, ← he]
          exact List.mem_map.mpr ⟨y, hy, rfl⟩
        simp [hyx]
      rw [hrest, List.map_id]
    · have hstep : updateFirst (fun m => m.id == x) f (m :: rest) =
          m :: updateFirst (fun m => m.id == x) f rest := by
        simp [updateFirst, h]
      rw [hstep, List.map_cons, if_neg h, ih hnd.2]

/-- The reorder fold over a list with distinct material ids is a pointwise
map of per-element folds. -/
theorem reorder_foldl_eq_map :
    ∀ (ps : List (Nat × String)) (l : List Material),
    (l.map (fun m => m.id)).Nodup →
    List.foldl (fun acc p => updateFirst (fun m => m.id == p.2)
        (fun m => { m with order := (p.1 : Int) + 1 }) acc) l ps =
      l.map (fun m => ps.foldl (fun m0 p =>
        if m0.id == p.2 then { m0 with order := (p.1 : Int) + 1 } else m0) m) := by
  intro ps
  induction ps with
  | nil =>
    intro l _
    simp
  | cons p ps ih =>
    intro l hnd
    rw [List.foldl_cons]
    rw [updateFirst_id_eq_map p.2 _ l hnd]
    have hids2 : ((l.map (fun m => if m.id == p.2
        then { m with order := (p.1 : Int) + 1 } else m)).map (fun m => m.id)).Nodup := by
      have hsame : (l.map (fun m => if m.id == p.2
          then { m with order := (p.1 : Int) + 1 } else m)).map (fun m => m.id) =
          l.map (fun m => m.id) := by
        rw [List.map_map]
        apply List.map_congr_left
        intro m _
        by_cases h : (m.id == p.2) = true <;> simp [Function.comp, h]
      rw [hsame]
      exact hnd
    rw [ih _ hids2, List.map_map]
    simp only [List.foldl_cons]
    rfl

/-- A material whose id matches no pair in the list is left unchanged by the
per-element reorder fold. -/
theorem reorder_elem_fold_id (m : Material) :
    ∀ ps : List (Nat × String), (∀ p ∈ ps, p.2 ≠ m.id) →
    ps.foldl (fun m0 p =>
      if m0.id == p.2 then { m0 with order := (p.1 : Int) + 1 } else m0) m = m := by
  intro ps
  induction ps with
  | nil => intro _; rfl
  | cons p ps ih =>
    intro h
    have hne : ¬ (m.id == p.2) = true := by
      simp only [beq_iff_eq]
      exact fun he => (h p (by simp)) he.symm
    rw [List.foldl_cons, if_neg hne]
    exact ih (fun q hq => h q (by simp [hq]))

/-- The per-element reorder fold keeps the material id. -/
theorem reorder_elem_fold_keeps_id (ps : List (Nat × String)) :
    ∀ m : Material, (ps.foldl (fun m0 p =>
      if m0.id == p.2 then { m0 with order := (p.1 : Int) + 1 } else m0) m).id = m.id := by
  induction ps with
  | nil => intro m; rfl
  | cons p ps ih =>
    intro m
    rw [List.foldl_cons]
    by_cases h : (m.id == p.2) = true
    · rw [if_pos h]
      exact ih _
    · rw [if_neg h]
      exact ih _

/-- When the second components of ps are distinct and ps contains (i, m.id),
the per-element reorder fold sets order to i + 1. -/
theorem reorder_elem_fold_sets (m : Material) (i : Nat) :
    ∀ ps : List (Nat × String), (ps.map (fun p => p.2)).Nodup →
    (i, m.id) ∈ ps →
    ps.foldl (fun m0 p =>
      if m0.id == p.2 then { m0 with order := (p.1 : Int) + 1 } else m0) m =
      { m with order := (i : Int) + 1 } := by
  intro ps
  induction ps with
  | nil => intro _ h; cases h
  | cons p ps ih =>
    intro hnd hmem
    simp only [List.map_cons, List.nodup_cons] at hnd
    rcases List.mem_cons.mp hmem with heq | htail
    · have hp2 : p.2 = m.id := by rw [← heq]
      have hp1 : p.1 = i := by rw [← heq]
      have ht : (m.id == p.2) = true := by simp [hp2]
      rw [List.foldl_cons, if_pos ht, hp1]
      apply reorder_elem_fold_id
      intro q hq he
      have he2 : q.2 = m.id := he
      apply hnd.1
      rw [hp2, ← he2]
      exact List.mem_map.mpr ⟨q, hq, rfl⟩
    · have hp2 : p.2 ≠ m.id := by
        intro he
        exact hnd.1 (he ▸ List.mem_map.mpr ⟨(i, m.id), htail, rfl⟩)
      have hne : ¬ (m.id == p.2) = true := by
        simp only [beq_iff_eq]
        exact fun he => hp2 he.symm
      rw [List.foldl_cons, if_neg hne]
      exact ih hnd.2 htail

/-- C7: for a classroom owned by the caller, reorder succeeds regardless of
whether the listed ids belong to the classroom, sets the order of the material
carrying the i-th id to i + 1 for each id independently, and leaves materials
whose id is not listed unchanged. -/
theorem reorder_assigns_positions
    (cid : String) (ids : List String) (u : User) (db : DB) (c : Classroom)
    (hc : db.classrooms.find? (fun x => x.id == cid) = some c)
    (hown : c.teacherId = u.id)
    (hids : ids.Nodup)
    (hmids : (db.materials.map (fun m => m.id)).Nodup) :
    ∃ db2, reorder_materials cid ids u db = .ok ("Materials reordered", db2) ∧
      (∀ (i : Nat) (hi : i < ids.length), ∀ m ∈ db2.materials,
        m.id = ids.get ⟨i, hi⟩ → m.order = (i : Int) + 1) ∧
      (∀ m ∈ db.materials, m.id ∉ ids → m ∈ db2.materials) := by
  have hsndeq : ids.enum.map (fun p : Nat × String => p.2) = ids := by
    rw [List.enum_eq_enumFrom]
    exact List.enumFrom_map_snd 0 ids
  unfold reorder_materials
  simp only [hc]
  rw [if_neg (by simp [hown])]
  refine ⟨_, rfl, ?_, ?_⟩
  · intro i hi m hm hmid
    rw [reorder_foldl_eq_map ids.enum db.materials hmids] at hm
    obtain ⟨m0, hm0, hfm⟩ := List.mem_map.mp hm
    have hid0 : m.id = m0.id := by
      rw [← hfm]
      exact reorder_elem_fold_keeps_id _ _
    have hsnd : (ids.enum.map (fun p : Nat × String => p.2)).Nodup := by
      rw [hsndeq]
      exact hids
    have hmem : (i, m0.id) ∈ ids.enum := by
      rw [List.mk_mem_enum_iff_getElem?]
      rw [← hid0, hmid, List.get_eq_getElem]
      exact List.getElem?_eq_getElem hi
    rw [← hfm, reorder_elem_fold_sets m0 i ids.enum hsnd hmem]
  · intro m hm hnot
    rw [reorder_foldl_eq_map ids.enum db.materials hmids]
    refine List.mem_map.mpr ⟨m, hm, ?_⟩
    apply reorder_elem_fold_id
    intro p hp he
    apply hnot
    rw [← he, ← hsndeq]
    exact List.mem_map.mpr ⟨p, hp, rfl⟩

/-- C7 witness: reorder with ids [m3, m1, m2] yields m3.order 1, m1.order 2,
m2.order 3 on a concrete database, and the general theorem applies there. -/
theorem reorder_assigns_positions_witness :
    reorder_materials "c1" ["m3", "m1", "m2"] c3user rdb =
      .ok ("Materials reordered", rdb2) ∧
    (∃ db2, reorder_materials "c1" ["m3", "m1", "m2"] c3user rdb =
        .ok ("Materials reordered", db2) ∧
      (∀ (i : Nat) (hi : i < (["m3", "m1", "m2"] : List String).length),
        ∀ m ∈ db2.materials,
        m.id = (["m3", "m1", "m2"] : List String).get ⟨i, hi⟩ →
          m.order = (i : Int) + 1) ∧
      (∀ m ∈ rdb.materials, m.id ∉ (["m3", "m1", "m2"] : List String) →
        m ∈ db2.materials)) :=
  ⟨by decide, reorder_assigns_positions "c1" ["m3", "m1", "m2"] c3user rdb jRoom
    (by decide) (by decide) (by decide) (by decide)⟩

/-! Claim C8 -/

/-- Mongo update_one followed by a re-read: when the first match is rewritten
in place and still satisfies the predicate, find? returns the rewritten
element. -/
theorem find?_updateFirst {α : Type} (p : α → Bool) (f : α → α) (l : List α) (x : α)
    (hfind : l.find? p = some x) (hpf : p (f x) = true) :
    (updateFirst p f l).find? p = some (f x) := by
  induction l with
  | nil => cases hfind
  | cons y ys ih =>
    by_cases h : p y = true
    · rw [List.find?_cons_of_pos _ h] at hfind
      injection hfind with hx
      subst hx
      simp [updateFirst, h, hpf]
    · rw [List.find?_cons_of_neg _ h] at hfind
      simp only [updateFirst, if_neg h]
      rw [List.find?_cons_of_neg _ h]
      exact ih hfind

/-- update_profile written with the applyProfile closure made explicit. -/
theorem update_profile_eq (data : UserUpdate) (user : User) (now : String) (db : DB) :
    update_profile data user now db =
      (match (if (truthy data.name || data.avatar.isSome) = true
          then updateFirst (fun u => u.id == user.id) (applyProfile data now) db.users
          else db.users).find? (fun u => u.id == user.id) with
      | none => .crash
      | some u2 => .ok (u2, { db with users :=
          (if (truthy data.name || data.avatar.isSome) = true
            then updateFirst (fun u => u.id == user.id) (applyProfile data now) db.users
            else db.users) })) := rfl

/-- The profile update never changes the user id. -/
theorem applyProfile_id (data : UserUpdate) (now : String) (u0 : User) :
    (applyProfile data now u0).id = u0.id := by
  unfold applyProfile
  cases hn : data.name <;> cases ha : data.avatar <;>
    simp [hn, ha, truthy] <;> split_ifs <;> rfl

/-- C8 counterexample: a provided empty-string name is dropped by the Python
truthiness check, so the stored name Alice survives and nothing is written,
refuting that a provided name is applied regardless of its value. -/
theorem update_profile_skips_empty_name :
    update_profile { name := some "", avatar := none } profUser "d9" profDb =
      .ok (profUser, profDb) ∧ profUser.name = "Alice" ∧ ("Alice" : String) ≠ "" := by
  decide

/-- C8 amended: update_profile applies a provided nonempty name and any
provided avatar, leaves absent fields unchanged, skips a provided
empty-string name because of the truthiness check, and refreshes updatedAt
exactly when some field is applied. -/
theorem update_profile_applies_provided_fields
    (data : UserUpdate) (user : User) (now : String) (db : DB)
    (hu : db.users.find? (fun x => x.id == user.id) = some user) :
    ∃ res db2, update_profile data user now db = .ok (res, db2) ∧
      (∀ n, data.name = some n → n ≠ "" → res.name = n) ∧
      (data.name = some "" → res.name = user.name) ∧
      (data.name = none → res.name = user.name) ∧
      (∀ a, data.avatar = some a → res.avatar = some a) ∧
      (data.avatar = none → res.avatar = user.avatar) ∧
      ((truthy data.name || data.avatar.isSome) = true → res.updatedAt = now) ∧
      ((truthy data.name || data.avatar.isSome) = false → res = user) := by
  rw [update_profile_eq]
  by_cases hU : (truthy data.name || data.avatar.isSome) = true
  · rw [if_pos hU]
    rw [find?_updateFirst (fun u => u.id == user.id) (applyProfile data now)
      db.users user hu (by simp [applyProfile_id])]
    refine ⟨_, _, rfl, ?_, ?_, ?_, ?_, ?_, ?_, ?_⟩
    · intro n hn hne
      unfold applyProfile
      rw [hn]
      cases ha : data.avatar <;> simp [ha, truthy, hne]
    · intro h0
      unfold applyProfile
      rw [h0]
      cases ha : data.avatar <;> simp [ha, truthy]
    · intro h0
      unfold applyProfile
      rw [h0]
      cases ha : data.avatar <;> simp [ha, truthy]
    · intro a ha
      unfold applyProfile
      rw [ha]
      cases hn : data.name <;> simp [hn, truthy] <;> split_ifs <;> rfl
    · intro ha
      unfold applyProfile
      rw [ha]
      cases hn : data.name <;> simp [hn, truthy] <;> split_ifs <;> rfl
    · intro h
      unfold applyProfile
      rw [if_pos h]
    · intro h
      rw [h] at hU
      exact absurd hU (by decide)
  · rw [if_neg hU, hu]
    have hparts : truthy data.name = false ∧ data.avatar.isSome = false := by
      rcases Bool.eq_false_or_eq_true (truthy data.name) with h1 | h1 <;>
        rcases Bool.eq_false_or_eq_true data.avatar.isSome with h2 | h2 <;>
        simp [h1, h2] at hU ⊢
    refine ⟨_, _, rfl, ?_, ?_, ?_, ?_, ?_, ?_, ?_⟩
    · intro n hn hne
      exfalso
      rw [hn] at hparts
      simp [truthy] at hparts
      exact hne hparts.1
    · intro _
      rfl
    · intro _
      rfl
    · intro a ha
      exfalso
      rw [ha] at hparts
      simp at hparts
    · intro _
      rfl
    · intro h
      exact absurd h hU
    · intro _
      rfl

/-- C8 witness: a nonempty name and an avatar are both applied and updatedAt
is refreshed on a concrete database. -/
theorem update_profile_applies_provided_fields_witness :
    profDb.users.find? (fun x => x.id == profUser.id) = some profUser ∧
    (∃ res db2, update_profile pData profUser "d9" profDb = .ok (res, db2) ∧
      (∀ n, pData.name = some n → n ≠ "" → res.name = n) ∧
      (pData.name = some "" → res.name = profUser.name) ∧
      (pData.name = none → res.name = profUser.name) ∧
      (∀ a, pData.avatar = some a → res.avatar = some a) ∧
      (pData.avatar = none → res.avatar = profUser.avatar) ∧
      ((truthy pData.name || pData.avatar.isSome) = true → res.updatedAt = "d9") ∧
      ((truthy pData.name || pData.avatar.isSome) = false → res = profUser)) :=
  ⟨by decide, update_profile_applies_provided_fields pData profUser "d9" profDb (by decide)⟩

/-! Claim C10 -/

/-- The material $set never touches the id field. -/
theorem applyMaterialUpdate_keeps_id (data : MaterialUpdate) (now : String)
    (m : Material) : (applyMaterialUpdate data now m).id = m.id := rfl

/-- C10 counterexample: on a material whose classroomId is dangling, get by a
student caller never reads teacherId; it succeeds instead of crashing. -/
theorem get_material_dangling_student_no_crash :
    dangDb.classrooms.find? (fun c => c.id == mDangling.classroomId) = none ∧
    get_material "m9" jStudentA dangDb = .ok mDangling := by
  decide

/-- C10 amended: get, update and delete material resolve the owning classroom;
when it exists none of them crash; when it is missing, update and delete crash
for any caller because they subscript the classroom unconditionally, while get
crashes only for a TEACHER caller, the student branch never reading teacherId. -/
theorem material_ops_classroom_deref
    (id : String) (u : User) (data : MaterialUpdate) (now : String) (db : DB)
    (m : Material)
    (hm : db.materials.find? (fun x => x.id == id) = some m) :
    ((db.classrooms.find? (fun c => c.id == m.classroomId)).isSome →
      get_material id u db ≠ .crash ∧
      update_material id data u now db ≠ .crash ∧
      delete_material id u db ≠ .crash) ∧
    (db.classrooms.find? (fun c => c.id == m.classroomId) = none →
      update_material id data u now db = .crash ∧
      delete_material id u db = .crash ∧
      (u.role = UserRole.TEACHER → get_material id u db = .crash)) := by
  constructor
  · intro hsome
    obtain ⟨c, hcs⟩ := Option.isSome_iff_exists.mp hsome
    refine ⟨?_, ?_, ?_⟩
    · unfold get_material
      simp only [hm, hcs]
      split_ifs <;> simp
    · unfold update_material
      simp only [hm, hcs]
      by_cases hown : c.teacherId ≠ u.id
      · rw [if_pos hown]
        simp
      · rw [if_neg hown]
        by_cases hU : materialUpdateHas data = true
        · rw [if_pos hU]
          rw [find?_updateFirst (fun x => x.id == id) (applyMaterialUpdate data now)
            db.materials m hm
            (by
              show ((applyMaterialUpdate data now m).id == id) = true
              rw [applyMaterialUpdate_keeps_id]
              have h2 := List.find?_some hm
              exact h2)]
          simp
        · rw [if_neg hU, hm]
          simp
    · unfold delete_material
      simp only [hm, hcs]
      split_ifs <;> simp
  · intro hnone
    refine ⟨?_, ?_, ?_⟩
    · unfold update_material
      simp only [hm, hnone]
    · unfold delete_material
      simp only [hm, hnone]
    · intro hrole
      unfold get_material
      simp only [hm, hnone, hrole]
      simp [UserRole.TEACHER]

/-- C10 witness: the three operations do not crash on a material with an
existing classroom, and update/delete (and teacher get) crash on a material
whose classroomId is dangling. -/
theorem material_ops_classroom_deref_witness :
    (get_material "m1" c3user mdb ≠ .crash ∧
      update_material "m1" mu0 c3user "d9" mdb ≠ .crash ∧
      delete_material "m1" c3user mdb ≠ .crash) ∧
    (update_material "m9" mu0 c3user "d9" dangDb = .crash ∧
      delete_material "m9" c3user dangDb = .crash ∧
      (c3user.role = UserRole.TEACHER → get_material "m9" c3user dangDb = .crash)) :=
  ⟨(material_ops_classroom_deref "m1" c3user mu0 "d9" mdb mUnpub (by decide)).1
      (by decide),
    (material_ops_classroom_deref "m9" c3user mu0 "d9" dangDb mDangling (by decide)).2
      (by decide)⟩

/-! Claim C5 -/

/-- Members of a list whose image list is duplicate-free are determined by
their image. -/
theorem mem_eq_of_map_nodup {α β : Type} (f : α → β) {l : List α}
    (hnd : (l.map f).Nodup) {a b : α} (ha : a ∈ l) (hb : b ∈ l)
    (hf : f a = f b) : a = b := by
  induction l with
  | nil => cases ha
  | cons x xs ih =>
    simp only [List.map_cons, List.nodup_cons] at hnd
    rcases List.mem_cons.mp ha with rfl | ha2
    · rcases List.mem_cons.mp hb with rfl | hb2
      · rfl
      · exact absurd (by rw [hf]; exact List.mem_map.mpr ⟨b, hb2, rfl⟩) hnd.1
    · rcases List.mem_cons.mp hb with rfl | hb2
      · exact absurd (by rw [← hf]; exact List.mem_map.mpr ⟨a, ha2, rfl⟩) hnd.1
      · exact ih hnd.2 ha2 hb2

/-- After delete_one by key on a list with duplicate-free keys, find_one by
that key returns nothing. -/
theorem find?_eraseP_none {α β : Type} [BEq β] [LawfulBEq β] (f : α → β) (k : β)
    (l : List α) (hnd : (l.map f).Nodup) :
    (l.eraseP (fun x => f x == k)).find? (fun x => f x == k) = none := by
  induction l with
  | nil => rfl
  | cons x xs ih =>
    simp only [List.map_cons, List.nodup_cons] at hnd
    by_cases h : (f x == k) = true
    · have e1 : (x :: xs).eraseP (fun y => f y == k) = xs :=
        List.eraseP_cons_of_pos h
      rw [e1, List.find?_eq_none]
      intro y hy hp
      apply hnd.1
      have h1 : f x = k := beq_iff_eq.mp h
      have h2 : f y = k := beq_iff_eq.mp hp
      rw [h1, ← h2]
      exact List.mem_map.mpr ⟨y, hy, rfl⟩
    · have e1 : (x :: xs).eraseP (fun y => f y == k) =
          x :: xs.eraseP (fun y => f y == k) :=
        List.eraseP_cons_of_neg (by simpa using h)
      have e2 : (x :: xs.eraseP (fun y => f y == k)).find? (fun y => f y == k) =
          (xs.eraseP (fun y => f y == k)).find? (fun y => f y == k) :=
        List.find?_cons_of_neg _ h
      rw [e1, e2]
      exact ih hnd.2

/-- A filter dropping everything that satisfies q hides every p-match when
p-matches all satisfy q. -/
theorem find?_filter_none {α : Type} (p q : α → Bool) (l : List α)
    (h : ∀ x ∈ l, p x = true → q x = false) :
    (l.filter q).find? p = none := by
  rw [List.find?_eq_none]
  intro x hx hp
  rw [List.mem_filter] at hx
  have := h x hx.1 hp
  rw [this] at hx
  exact Bool.noConfusion hx.2

/-- C5: a successful owner delete removes every enrollment and material of the
classroom and the classroom itself, so get on the classroom, list of its
materials, and get on any former material all answer NotFound, and no
enrollment for it remains. -/
theorem delete_classroom_cascades
    (id : String) (t : User) (db : DB) (db2 : DB)
    (hok : delete_classroom id t db = .ok ("Classroom deleted", db2))
    (hcids : (db.classrooms.map (fun c => c.id)).Nodup)
    (hmids : (db.materials.map (fun m => m.id)).Nodup) :
    (∀ u, get_classroom id u db2 = .err 404 "Classroom not found") ∧
    (∀ u, get_materials id u db2 = .err 404 "Classroom not found") ∧
    (∀ m ∈ db.materials, m.classroomId = id →
      ∀ u, get_material m.id u db2 = .err 404 "Material not found") ∧
    (∀ e ∈ db2.enrollments, e.classroomId ≠ id) ∧
    db2.enrollments = db.enrollments.filter (fun e => !(e.classroomId == id)) ∧
    db2.materials = db.materials.filter (fun m => !(m.classroomId == id)) := by
  unfold delete_classroom at hok
  split at hok
  · exact Outcome.noConfusion hok
  · split at hok
    · exact Outcome.noConfusion hok
    · simp only [Outcome.ok.injEq, Prod.mk.injEq] at hok
      obtain ⟨-, hdb⟩ := hok
      subst hdb
      have hcnone : (db.classrooms.eraseP (fun c => c.id == id)).find?
          (fun c => c.id == id) = none :=
        find?_eraseP_none (fun c => c.id) id db.classrooms hcids
      refine ⟨?_, ?_, ?_, ?_, rfl, rfl⟩
      · intro u
        unfold get_classroom
        rw [hcnone]
      · intro u
        unfold get_materials
        rw [hcnone]
      · intro m hmmem hmcid u
        unfold get_material
        have hmnone : ((db.materials.filter (fun x => !(x.classroomId == id))).find?
            (fun x => x.id == m.id)) = none := by
          apply find?_filter_none
          intro x hx hp
          have hxm : x = m := mem_eq_of_map_nodup (fun y => y.id) hmids hx hmmem
            (beq_iff_eq.mp hp)
          subst hxm
          simp [hmcid]
        rw [hmnone]
      · intro e he
        rw [List.mem_filter] at he
        intro hcontra
        rw [hcontra] at he
        simp at he

/-- C5 witness: deleting the concrete classroom empties its enrollments and
materials, and all subsequent reads answer NotFound. -/
theorem delete_classroom_cascades_witness :
    (∀ u, get_classroom "c1" u cdelDb = .err 404 "Classroom not found") ∧
    (∀ u, get_materials "c1" u cdelDb = .err 404 "Classroom not found") ∧
    (∀ m ∈ mdb.materials, m.classroomId = "c1" →
      ∀ u, get_material m.id u cdelDb = .err 404 "Material not found") ∧
    (∀ e ∈ cdelDb.enrollments, e.classroomId ≠ "c1") ∧
    cdelDb.enrollments = mdb.enrollments.filter (fun e => !(e.classroomId == "c1")) ∧
    cdelDb.materials = mdb.materials.filter (fun m => !(m.classroomId == "c1")) :=
  delete_classroom_cascades "c1" c3user mdb cdelDb (by decide) (by decide) (by decide)

/-! Claim C9 -/

/-- The per-element reorder fold keeps classroomId. -/
theorem reorder_elem_fold_keeps_classroomId (ps : List (Nat × String)) :
    ∀ m : Material, (ps.foldl (fun m0 p =>
      if m0.id == p.2 then { m0 with order := (p.1 : Int) + 1 } else m0) m).classroomId
        = m.classroomId := by
  induction ps with
  | nil => intro m; rfl
  | cons p ps ih =>
    intro m
    rw [List.foldl_cons]
    by_cases h : (m.id == p.2) = true
    · rw [if_pos h]
      exact ih _
    · rw [if_neg h]
      exact ih _

/-- Inversion of a successful create_material. -/
theorem create_material_ok_inv {cid : String} {data : MaterialCreate} {u : User}
    {mid now : String} {db : DB} {doc : Material} {db2 : DB}
    (hok : create_material cid data u mid now db = .ok (doc, db2)) :
    db2.materials = db.materials ++ [doc] ∧ doc.classroomId = cid ∧
    doc.order = (match ((classMaterials db cid).map (fun m => m.order)).max? with
      | some o => o + 1
      | none => 1) := by
  unfold create_material at hok
  split at hok
  · exact Outcome.noConfusion hok
  · split at hok
    · exact Outcome.noConfusion hok
    · split at hok
      · simp only [Outcome.ok.injEq, Prod.mk.injEq] at hok
        obtain ⟨hdoc, hdb⟩ := hok
        subst hdoc hdb
        exact ⟨rfl, rfl, rfl⟩
      · exact Outcome.noConfusion hok

/-- Inversion of a successful update_material: the resulting materials list. -/
theorem update_material_ok_inv {id : String} {data : MaterialUpdate} {u : User}
    {now : String} {db : DB} {m2 : Material} {db2 : DB}
    (hok : update_material id data u now db = .ok (m2, db2)) :
    db2.materials =
      (if materialUpdateHas data
        then updateFirst (fun m => m.id == id) (applyMaterialUpdate data now) db.materials
        else db.materials) := by
  unfold update_material at hok
  split at hok
  · exact Outcome.noConfusion hok
  · split at hok
    · exact Outcome.noConfusion hok
    · split at hok
      · exact Outcome.noConfusion hok
      · split at hok
        · rename_i hU
          have hok2 : (match (updateFirst (fun m => m.id == id)
                (applyMaterialUpdate data now) db.materials).find?
                  (fun m => m.id == id) with
              | none => Outcome.crash
              | some m2 => Outcome.ok (m2, { db with materials :=
                  (updateFirst (fun m => m.id == id) (applyMaterialUpdate data now)
                    db.materials) })) = Outcome.ok (m2, db2) := hok
          split at hok2
          · exact Outcome.noConfusion hok2
          · simp only [Outcome.ok.injEq, Prod.mk.injEq] at hok2
            obtain ⟨-, hdb⟩ := hok2
            subst hdb
            rw [if_pos hU]
        · rename_i hU
          have hok2 : (match db.materials.find? (fun m => m.id == id) with
              | none => Outcome.crash
              | some m2 => Outcome.ok (m2, { db with materials := db.materials })) =
              Outcome.ok (m2, db2) := hok
          split at hok2
          · exact Outcome.noConfusion hok2
          · simp only [Outcome.ok.injEq, Prod.mk.injEq] at hok2
            obtain ⟨-, hdb⟩ := hok2
            subst hdb
            rw [if_neg hU]

/-- An update_one that changes neither classroomId nor order leaves the
per-classroom list of order values unchanged. -/
theorem updateFirst_filter_map_order (p : Material → Bool) (f : Material → Material)
    (cid : String)
    (hf : ∀ x, (f x).classroomId = x.classroomId ∧ (f x).order = x.order) :
    ∀ l : List Material,
    ((updateFirst p f l).filter (fun m => m.classroomId == cid)).map (fun m => m.order) =
      (l.filter (fun m => m.classroomId == cid)).map (fun m => m.order) := by
  intro l
  induction l with
  | nil => rfl
  | cons x xs ih =>
    by_cases h : p x = true
    · have e : updateFirst p f (x :: xs) = f x :: xs := by simp [updateFirst, h]
      rw [e]
      by_cases hq : (x.classroomId == cid) = true
      · have e1 : (f x :: xs).filter (fun m => m.classroomId == cid) =
            f x :: xs.filter (fun m => m.classroomId == cid) :=
          List.filter_cons_of_pos (by rw [show (f x).classroomId = x.classroomId from (hf x).1]; exact hq)
        have e2 : (x :: xs).filter (fun m => m.classroomId == cid) =
            x :: xs.filter (fun m => m.classroomId == cid) :=
          List.filter_cons_of_pos hq
        rw [e1, e2, List.map_cons, List.map_cons, (hf x).2]
      · have e1 : (f x :: xs).filter (fun m => m.classroomId == cid) =
            xs.filter (fun m => m.classroomId == cid) :=
          List.filter_cons_of_neg (by rw [show (f x).classroomId = x.classroomId from (hf x).1]; exact hq)
        have e2 : (x :: xs).filter (fun m => m.classroomId == cid) =
            xs.filter (fun m => m.classroomId == cid) :=
          List.filter_cons_of_neg hq
        rw [e1, e2]
    · have e : updateFirst p f (x :: xs) = x :: updateFirst p f xs := by
        simp [updateFirst, h]
      rw [e]
      by_cases hq : (x.classroomId == cid) = true
      · have e1 : (x :: updateFirst p f xs).filter (fun m => m.classroomId == cid) =
            x :: (updateFirst p f xs).filter (fun m => m.classroomId == cid) :=
          List.filter_cons_of_pos hq
        have e2 : (x :: xs).filter (fun m => m.classroomId == cid) =
            x :: xs.filter (fun m => m.classroomId == cid) :=
          List.filter_cons_of_pos hq
        rw [e1, e2, List.map_cons, List.map_cons, ih]
      · have e1 : (x :: updateFirst p f xs).filter (fun m => m.classroomId == cid) =
            (updateFirst p f xs).filter (fun m => m.classroomId == cid) :=
          List.filter_cons_of_neg hq
        have e2 : (x :: xs).filter (fun m => m.classroomId == cid) =
            xs.filter (fun m => m.classroomId == cid) :=
          List.filter_cons_of_neg hq
        rw [e1, e2, ih]

/-- Positions recovered through indexOf enumerate a duplicate-free list. -/
theorem indexOf_map_nodup (ids : List String) (h : ids.Nodup) :
    ids.map (fun s => ((ids.indexOf s : Nat) : Int) + 1) =
      (List.range ids.length).map (fun i : Nat => (i : Int) + 1) := by
  apply List.ext_getElem
  · rw [List.length_map, List.length_map, List.length_range]
  · intro j h1 h2
    simp only [List.getElem_map, List.getElem_range]
    have hj : j < ids.length := by
      rw [List.length_map] at h1
      exact h1
    have hmem : ids[j] ∈ ids := List.getElem_mem hj
    have hlt : ids.indexOf (ids[j]) < ids.length := List.indexOf_lt_length.mpr hmem
    have hval := List.getElem_indexOf hlt
    have hinj : ids.indexOf (ids[j]) = j := (List.Nodup.getElem_inj_iff h).mp hval
    rw [hinj]

/-- C9 counterexample: a dense classroom with orders 1,2,3 loses density after
delete_material removes the order-1 material; the remaining orders are 2,3. -/
theorem delete_material_breaks_density :
    denseOrders rdb "c1" ∧
    delete_material "m1" c3user rdb = .ok ("Material deleted", rdbDel) ∧
    ¬ denseOrders rdbDel "c1" := by
  decide

/-- C9 amended: density of per-classroom orders (1..N as a multiset) is
preserved by create_material (which assigns N + 1) and by update_material
without an explicit order field, and a reorder whose distinct ids are exactly
the classroom material ids re-normalizes the orders to 1..N; delete_material
does not preserve it (see the counterexample), nor need update with an
explicit order or a partial or foreign reorder. -/
theorem material_order_density (cid : String) (db : DB) :
    (∀ data u mid now doc db2, denseOrders db cid →
      create_material cid data u mid now db = .ok (doc, db2) →
      denseOrders db2 cid) ∧
    (∀ id data u now m2 db2, data.order = none → denseOrders db cid →
      update_material id data u now db = .ok (m2, db2) →
      denseOrders db2 cid) ∧
    (∀ (ids : List String) u c, db.classrooms.find? (fun x => x.id == cid) = some c →
      c.teacherId = u.id → ids.Nodup →
      (db.materials.map (fun m => m.id)).Nodup →
      (ids : Multiset String) =
        ((classMaterials db cid).map (fun m => m.id) : Multiset String) →
      ∃ db2, reorder_materials cid ids u db = .ok ("Materials reordered", db2) ∧
        denseOrders db2 cid) := by
  refine ⟨?_, ?_, ?_⟩
  · intro data u mid now doc db2 hdense hok
    obtain ⟨hmats, hcls, hord⟩ := create_material_ok_inv hok
    have hfm : classMaterials db2 cid = classMaterials db cid ++ [doc] := by
      unfold classMaterials
      rw [hmats, List.filter_append]
      congr 1
      simp [hcls]
    have hperm : List.Perm ((classMaterials db cid).map (fun m => m.order))
        ((List.range (classMaterials db cid).length).map
          (fun i : Nat => (i : Int) + 1)) :=
      Multiset.coe_eq_coe.mp hdense
    have hordN : doc.order = ((classMaterials db cid).length : Int) + 1 := by
      rw [hord]
      cases hmax : ((classMaterials db cid).map (fun m => m.order)).max? with
      | none =>
        rw [List.max?_eq_none_iff, List.map_eq_nil_iff] at hmax
        rw [hmax]
        simp
      | some o =>
        obtain ⟨hmem, hub⟩ := int_max?_spec hmax
        have hmem2 : o ∈ (List.range (classMaterials db cid).length).map
            (fun i : Nat => (i : Int) + 1) := hperm.mem_iff.mp hmem
        obtain ⟨i, hi, hio⟩ := List.mem_map.mp hmem2
        rw [List.mem_range] at hi
        have hNpos : 0 < (classMaterials db cid).length := by omega
        have hQ : (((classMaterials db cid).length - 1 : Nat) : Int) + 1 ∈
            (List.range (classMaterials db cid).length).map
              (fun i : Nat => (i : Int) + 1) :=
          List.mem_map.mpr ⟨(classMaterials db cid).length - 1,
            List.mem_range.mpr (by omega), rfl⟩
        have hle := hub _ (hperm.mem_iff.mpr hQ)
        show o + 1 = ((classMaterials db cid).length : Int) + 1
        omega
    unfold denseOrders
    rw [hfm, List.map_append, List.length_append]
    have hone : (([doc] : List Material)).length = 1 := rfl
    rw [hone, List.range_succ, List.map_append]
    rw [← Multiset.coe_add, ← Multiset.coe_add]
    unfold denseOrders at hdense
    rw [hdense]
    have h1 : ([doc].map (fun m => m.order)) =
        [((classMaterials db cid).length : Int) + 1] := by
      simp [hordN]
    have h2 : (([(classMaterials db cid).length] : List Nat).map
        (fun i : Nat => (i : Int) + 1)) =
        [((classMaterials db cid).length : Int) + 1] := by
      simp
    rw [h1, h2]
  · intro id data u now m2 db2 hOrd hdense hok
    have hmats := update_material_ok_inv hok
    by_cases hU : materialUpdateHas data = true
    · rw [if_pos hU] at hmats
      have heq := updateFirst_filter_map_order (fun m => m.id == id)
        (applyMaterialUpdate data now) cid
        (fun x => ⟨rfl, by simp [applyMaterialUpdate, hOrd]⟩) db.materials
      have hlen : ((updateFirst (fun m => m.id == id) (applyMaterialUpdate data now)
            db.materials).filter (fun m => m.classroomId == cid)).length =
          (db.materials.filter (fun m => m.classroomId == cid)).length := by
        have h2 := congrArg List.length heq
        simpa using h2
      unfold denseOrders classMaterials at hdense ⊢
      rw [hmats, heq, hlen]
      exact hdense
    · rw [if_neg hU] at hmats
      unfold denseOrders classMaterials at hdense ⊢
      rw [hmats]
      exact hdense
  · intro ids u c hc hown hids hmids hexact
    have hsndeq : ids.enum.map (fun p : Nat × String => p.2) = ids := by
      rw [List.enum_eq_enumFrom]
      exact List.enumFrom_map_snd 0 ids
    have hsnd : (ids.enum.map (fun p : Nat × String => p.2)).Nodup := by
      rw [hsndeq]
      exact hids
    have hpermIds : List.Perm ids ((classMaterials db cid).map (fun m => m.id)) :=
      Multiset.coe_eq_coe.mp hexact
    unfold classMaterials at hpermIds
    unfold reorder_materials
    simp only [hc]
    rw [if_neg (by simp [hown])]
    refine ⟨_, rfl, ?_⟩
    unfold denseOrders classMaterials
    dsimp only
    rw [reorder_foldl_eq_map ids.enum db.materials hmids]
    rw [List.filter_map]
    have hqc : List.filter ((fun m => m.classroomId == cid) ∘
          (fun m => ids.enum.foldl (fun m0 p =>
            if m0.id == p.2 then { m0 with order := (p.1 : Int) + 1 } else m0) m))
          db.materials =
        List.filter (fun m => m.classroomId == cid) db.materials := by
      apply List.filter_congr
      intro x _
      simp only [Function.comp_apply]
      rw [reorder_elem_fold_keeps_classroomId]
    rw [hqc, List.map_map, List.length_map]
    have hmc : (List.filter (fun m => m.classroomId == cid) db.materials).map
        ((fun m => m.order) ∘ (fun m => ids.enum.foldl (fun m0 p =>
          if m0.id == p.2 then { m0 with order := (p.1 : Int) + 1 } else m0) m)) =
        (List.filter (fun m => m.classroomId == cid) db.materials).map
          (fun m => ((ids.indexOf m.id : Nat) : Int) + 1) := by
      apply List.map_congr_left
      intro m hm
      have hmemIds : m.id ∈ ids :=
        hpermIds.mem_iff.mpr (List.mem_map.mpr ⟨m, hm, rfl⟩)
      have hlt : ids.indexOf m.id < ids.length := List.indexOf_lt_length.mpr hmemIds
      have hmemEnum : (ids.indexOf m.id, m.id) ∈ ids.enum := by
        rw [List.mk_mem_enum_iff_getElem?]
        rw [List.getElem?_eq_getElem hlt]
        rw [List.getElem_indexOf hlt]
      simp only [Function.comp_apply]
      rw [reorder_elem_fold_sets m (ids.indexOf m.id) ids.enum hsnd hmemEnum]
    rw [hmc]
    have hsplit : (List.filter (fun m => m.classroomId == cid) db.materials).map
        (fun m => ((ids.indexOf m.id : Nat) : Int) + 1) =
        ((List.filter (fun m => m.classroomId == cid) db.materials).map
          (fun m => m.id)).map (fun s => ((ids.indexOf s : Nat) : Int) + 1) := by
      rw [List.map_map]
      rfl
    rw [hsplit]
    have hfin : ids.map (fun s => ((ids.indexOf s : Nat) : Int) + 1) =
        (List.range (List.filter (fun m => m.classroomId == cid)
          db.materials).length).map (fun i : Nat => (i : Int) + 1) := by
      rw [indexOf_map_nodup ids hids]
      have hlen2 : ids.length =
          (List.filter (fun m => m.classroomId == cid) db.materials).length := by
        rw [hpermIds.length_eq, List.length_map]
      rw [hlen2]
    exact Multiset.coe_eq_coe.mpr
      (hfin ▸ (hpermIds.map (fun s => ((ids.indexOf s : Nat) : Int) + 1)).symm)

/-- C9 witness: the amended density facts instantiated on the concrete
three-material classroom: create keeps density, a no-order update keeps
density, and a full reorder restores 1..N. -/
theorem material_order_density_witness :
    denseOrders rdb "c1" ∧
    (∀ doc db2, denseOrders rdb "c1" →
      create_material "c1" cmData c3user "m4" "d4" rdb = .ok (doc, db2) →
      denseOrders db2 "c1") ∧
    (∀ m2 db2, mu0.order = none → denseOrders rdb "c1" →
      update_material "m1" mu0 c3user "d4" rdb = .ok (m2, db2) →
      denseOrders db2 "c1") ∧
    (∃ db2, reorder_materials "c1" ["m3", "m1", "m2"] c3user rdb =
        .ok ("Materials reordered", db2) ∧ denseOrders db2 "c1") := by
  refine ⟨by decide, ?_, ?_, ?_⟩
  · intro doc db2 hd hok
    exact (material_order_density "c1" rdb).1 cmData c3user "m4" "d4" doc db2 hd hok
  · intro m2 db2 ho hd hok
    exact (material_order_density "c1" rdb).2.1 "m1" mu0 c3user "d4" m2 db2 ho hd hok
  · exact (material_order_density "c1" rdb).2.2 ["m3", "m1", "m2"] c3user jRoom
      (by decide) (by decide) (by decide) (by decide) (by decide)

/-! Claim C4 -/

/-- Every generated code has six characters drawn from the population. -/
theorem generate_code_valid (r : Fin 6 → Fin 36) :
    (generate_code r).length = 6 ∧ ∀ ch ∈ (generate_code r).data, ch ∈ codeAlphabet := by
  constructor
  · simp [generate_code, String.length]
  · intro ch hch
    simp [generate_code] at hch
    obtain ⟨i, hi⟩ := hch
    subst hi
    have hlt : (r i).val < codeAlphabet.length := by
      have h36 : (r i).val < 36 := (r i).isLt
      simpa [codeAlphabet] using h36
    rw [List.getElem?_eq_getElem hlt]
    exact List.getElem_mem hlt

/-- Rewriting one element without changing a projection keeps the projected
list. -/
theorem updateFirst_map_eq {α β : Type} (p : α → Bool) (f : α → α) (g : α → β)
    (hf : ∀ x, g (f x) = g x) :
    ∀ l : List α, (updateFirst p f l).map g = l.map g := by
  intro l
  induction l with
  | nil => rfl
  | cons x xs ih =>
    by_cases h : p x = true
    · simp [updateFirst, h, hf]
    · simp [updateFirst, h, ih]

/-- Elements after update_one come from the original list, possibly through
the update function. -/
theorem updateFirst_mem {α : Type} (p : α → Bool) (f : α → α) :
    ∀ l : List α, ∀ y ∈ updateFirst p f l, y ∈ l ∨ ∃ x ∈ l, y = f x := by
  intro l
  induction l with
  | nil => intro y hy; cases hy
  | cons x xs ih =>
    intro y hy
    by_cases h : p x = true
    · rw [show updateFirst p f (x :: xs) = f x :: xs from by simp [updateFirst, h]] at hy
      rcases List.mem_cons.mp hy with rfl | h2
      · exact Or.inr ⟨x, List.mem_cons_self x xs, rfl⟩
      · exact Or.inl (List.mem_cons_of_mem x h2)
    · rw [show updateFirst p f (x :: xs) = x :: updateFirst p f xs from by
        simp [updateFirst, h]] at hy
      rcases List.mem_cons.mp hy with rfl | h2
      · exact Or.inl (List.mem_cons_self y xs)
      · rcases ih y h2 with h3 | ⟨z, hz, he⟩
        · exact Or.inl (List.mem_cons_of_mem x h3)
        · exact Or.inr ⟨z, List.mem_cons_of_mem x hz, he⟩

/-- The classroom $set changes neither the code nor the id. -/
theorem applyClassroomUpdate_keeps (data : ClassroomUpdate) (now : String)
    (c : Classroom) :
    (applyClassroomUpdate data now c).code = c.code ∧
    (applyClassroomUpdate data now c).id = c.id := ⟨rfl, rfl⟩

theorem register_ok_classrooms {data : UserCreate} {user_id pwHash now : String}
    {nowSec : Nat} {db : DB} {res : User × TokenPayload} {db2 : DB}
    (h : register data user_id pwHash now nowSec db = .ok (res, db2)) :
    db2.classrooms = db.classrooms := by
  unfold register at h
  split at h
  · exact Outcome.noConfusion h
  · split at h
    · simp only [Outcome.ok.injEq, Prod.mk.injEq] at h
      obtain ⟨-, hdb⟩ := h
      subst hdb
      rfl
    · exact Outcome.noConfusion h

theorem update_profile_ok_classrooms {data : UserUpdate} {user : User}
    {now : String} {db : DB} {res : User} {db2 : DB}
    (h : update_profile data user now db = .ok (res, db2)) :
    db2.classrooms = db.classrooms := by
  rw [update_profile_eq] at h
  split at h
  · exact Outcome.noConfusion h
  · simp only [Outcome.ok.injEq, Prod.mk.injEq] at h
    obtain ⟨-, hdb⟩ := h
    subst hdb
    rfl

theorem change_password_ok_classrooms {user : User} {verifyOk : Bool}
    {newHash now : String} {db : DB} {msg : String} {db2 : DB}
    (h : change_password user verifyOk newHash now db = .ok (msg, db2)) :
    db2.classrooms = db.classrooms := by
  unfold change_password at h
  split at h
  · exact Outcome.noConfusion h
  · simp only [Outcome.ok.injEq, Prod.mk.injEq] at h
    obtain ⟨-, hdb⟩ := h
    subst hdb
    rfl

theorem join_classroom_ok_classrooms {code : String} {user : User}
    {eid now : String} {db : DB} {c : Classroom} {db2 : DB}
    (h : join_classroom code user eid now db = .ok (c, db2)) :
    db2.classrooms = db.classrooms := by
  obtain ⟨-, -, -, -, hdb⟩ := join_ok_inv h
  subst hdb
  rfl

theorem leave_classroom_ok_classrooms {id : String} {user : User} {db : DB}
    {msg : String} {db2 : DB}
    (h : leave_classroom id user db = .ok (msg, db2)) :
    db2.classrooms = db.classrooms := by
  unfold leave_classroom at h
  split at h
  · exact Outcome.noConfusion h
  · split at h
    · exact Outcome.noConfusion h
    · simp only [Outcome.ok.injEq, Prod.mk.injEq] at h
      obtain ⟨-, hdb⟩ := h
      subst hdb
      rfl

theorem create_material_ok_classrooms {cid : String} {data : MaterialCreate}
    {user : User} {mid now : String} {db : DB} {doc : Material} {db2 : DB}
    (h : create_material cid data user mid now db = .ok (doc, db2)) :
    db2.classrooms = db.classrooms := by
  unfold create_material at h
  split at h
  · exact Outcome.noConfusion h
  · split at h
    · exact Outcome.noConfusion h
    · split at h
      · simp only [Outcome.ok.injEq, Prod.mk.injEq] at h
        obtain ⟨-, hdb⟩ := h
        subst hdb
        rfl
      · exact Outcome.noConfusion h

theorem update_material_ok_classrooms {id : String} {data : MaterialUpdate}
    {user : User} {now : String} {db : DB} {m2 : Material} {db2 : DB}
    (h : update_material id data user now db = .ok (m2, db2)) :
    db2.classrooms = db.classrooms := by
  unfold update_material at h
  split at h
  · exact Outcome.noConfusion h
  · split at h
    · exact Outcome.noConfusion h
    · split at h
      · exact Outcome.noConfusion h
      · split at h
        · rename_i hU
          have h2 : (match (updateFirst (fun m => m.id == id)
                (applyMaterialUpdate data now) db.materials).find?
                  (fun m => m.id == id) with
              | none => Outcome.crash
              | some m2 => Outcome.ok (m2, { db with materials :=
                  (updateFirst (fun m => m.id == id) (applyMaterialUpdate data now)
                    db.materials) })) = Outcome.ok (m2, db2) := h
          split at h2
          · exact Outcome.noConfusion h2
          · simp only [Outcome.ok.injEq, Prod.mk.injEq] at h2
            obtain ⟨-, hdb⟩ := h2
            subst hdb
            rfl
        · rename_i hU
          have h2 : (match db.materials.find? (fun m => m.id == id) with
              | none => Outcome.crash
              | some m2 => Outcome.ok (m2, { db with materials := db.materials })) =
              Outcome.ok (m2, db2) := h
          split at h2
          · exact Outcome.noConfusion h2
          · simp only [Outcome.ok.injEq, Prod.mk.injEq] at h2
            obtain ⟨-, hdb⟩ := h2
            subst hdb
            rfl

theorem delete_material_ok_classrooms {id : String} {user : User} {db : DB}
    {msg : String} {db2 : DB}
    (h : delete_material id user db = .ok (msg, db2)) :
    db2.classrooms = db.classrooms := by
  unfold delete_material at h
  split at h
  · exact Outcome.noConfusion h
  · split at h
    · exact Outcome.noConfusion h
    · split at h
      · exact Outcome.noConfusion h
      · simp only [Outcome.ok.injEq, Prod.mk.injEq] at h
        obtain ⟨-, hdb⟩ := h
        subst hdb
        rfl

theorem reorder_materials_ok_classrooms {cid : String} {ids : List String}
    {user : User} {db : DB} {msg : String} {db2 : DB}
    (h : reorder_materials cid ids user db = .ok (msg, db2)) :
    db2.classrooms = db.classrooms := by
  unfold reorder_materials at h
  split at h
  · exact Outcome.noConfusion h
  · split at h
    · exact Outcome.noConfusion h
    · simp only [Outcome.ok.injEq, Prod.mk.injEq] at h
      obtain ⟨-, hdb⟩ := h
      subst hdb
      rfl

theorem update_classroom_ok_shape {id : String} {data : ClassroomUpdate}
    {user : User} {now : String} {db : DB} {c2 : Classroom} {db2 : DB}
    (h : update_classroom id data user now db = .ok (c2, db2)) :
    db2.classrooms =
      (if classroomUpdateHas data
        then updateFirst (fun c => c.id == id) (applyClassroomUpdate data now)
          db.classrooms
        else db.classrooms) := by
  unfold update_classroom at h
  split at h
  · exact Outcome.noConfusion h
  · split at h
    · exact Outcome.noConfusion h
    · split at h
      · rename_i hU
        have h2 : (match (updateFirst (fun c => c.id == id)
              (applyClassroomUpdate data now) db.classrooms).find?
                (fun c => c.id == id) with
            | none => Outcome.crash
            | some c2 => Outcome.ok (c2, { db with classrooms :=
                (updateFirst (fun c => c.id == id) (applyClassroomUpdate data now)
                  db.classrooms) })) = Outcome.ok (c2, db2) := h
        split at h2
        · exact Outcome.noConfusion h2
        · simp only [Outcome.ok.injEq, Prod.mk.injEq] at h2
          obtain ⟨-, hdb⟩ := h2
          subst hdb
          rw [if_pos hU]
      · rename_i hU
        have h2 : (match db.classrooms.find? (fun c => c.id == id) with
            | none => Outcome.crash
            | some c2 => Outcome.ok (c2, { db with classrooms := db.classrooms })) =
            Outcome.ok (c2, db2) := h
        split at h2
        · exact Outcome.noConfusion h2
        · simp only [Outcome.ok.injEq, Prod.mk.injEq] at h2
          obtain ⟨-, hdb⟩ := h2
          subst hdb
          rw [if_neg hU]

theorem delete_classroom_ok_shape {id : String} {user : User} {db : DB}
    {msg : String} {db2 : DB}
    (h : delete_classroom id user db = .ok (msg, db2)) :
    db2.classrooms = db.classrooms.eraseP (fun c => c.id == id) := by
  unfold delete_classroom at h
  split at h
  · exact Outcome.noConfusion h
  · split at h
    · exact Outcome.noConfusion h
    · simp only [Outcome.ok.injEq, Prod.mk.injEq] at h
      obtain ⟨-, hdb⟩ := h
      subst hdb
      rfl

theorem create_classroom_ok_inv {data : ClassroomCreate} {user : User}
    {classroom_id now : String} {randoms : List (Fin 6 → Fin 36)} {db : DB}
    {c : Classroom} {db2 : DB}
    (h : create_classroom data user classroom_id now randoms db = .ok (c, db2)) :
    db2.classrooms = db.classrooms ++ [c] ∧ c.id = classroom_id ∧
    (∃ r ∈ randoms, c.code = generate_code r) ∧
    db.classrooms.find? (fun k => k.code == c.code) = none := by
  unfold create_classroom at h
  split at h
  · exact Outcome.noConfusion h
  · split at h
    · exact Outcome.noConfusion h
    · rename_i code hfind
      simp only [Outcome.ok.injEq, Prod.mk.injEq] at h
      obtain ⟨hc, hdb⟩ := h
      subst hc hdb
      refine ⟨rfl, rfl, ?_, ?_⟩
      · have hmem := List.mem_of_find?_eq_some hfind
        obtain ⟨r, hr, he⟩ := List.mem_map.mp hmem
        exact ⟨r, hr, he.symm⟩
      · have hp := List.find?_some hfind
        simpa using hp

/-- Every successful API call preserves the classroom code/id invariant. -/
theorem step_preserves_classroom_inv {db db2 : DB} (hstep : Step db db2)
    (hinv : ClassroomInv db) : ClassroomInv db2 := by
  have keep : ∀ {dbx : DB}, dbx.classrooms = db.classrooms → ClassroomInv dbx := by
    intro dbx he
    unfold ClassroomInv at hinv ⊢
    rw [he]
    exact hinv
  cases hstep with
  | register _ _ _ _ _ _ _ _ h => exact keep (register_ok_classrooms h)
  | update_profile _ _ _ _ _ _ h => exact keep (update_profile_ok_classrooms h)
  | change_password _ _ _ _ _ _ _ h => exact keep (change_password_ok_classrooms h)
  | join_classroom _ _ _ _ _ _ _ h => exact keep (join_classroom_ok_classrooms h)
  | leave_classroom _ _ _ _ _ h => exact keep (leave_classroom_ok_classrooms h)
  | create_material _ _ _ _ _ _ _ _ h => exact keep (create_material_ok_classrooms h)
  | update_material _ _ _ _ _ _ _ h => exact keep (update_material_ok_classrooms h)
  | delete_material _ _ _ _ _ h => exact keep (delete_material_ok_classrooms h)
  | reorder_materials _ _ _ _ _ _ h => exact keep (reorder_materials_ok_classrooms h)
  | update_classroom id data user now _ cx _ h =>
    have hshape := update_classroom_ok_shape h
    by_cases hU : classroomUpdateHas data = true
    · rw [if_pos hU] at hshape
      have hcodes : db2.classrooms.map (fun c => c.code) =
          db.classrooms.map (fun c => c.code) := by
        rw [hshape]
        exact updateFirst_map_eq _ _ _
          (fun x => (applyClassroomUpdate_keeps data now x).1) db.classrooms
      have hids2 : db2.classrooms.map (fun c => c.id) =
          db.classrooms.map (fun c => c.id) := by
        rw [hshape]
        exact updateFirst_map_eq _ _ _
          (fun x => (applyClassroomUpdate_keeps data now x).2) db.classrooms
      unfold ClassroomInv at hinv ⊢
      refine ⟨?_, ?_, ?_⟩
      · intro c2m hc2
        have hmemcode : c2m.code ∈ db.classrooms.map (fun c => c.code) := by
          rw [← hcodes]
          exact List.mem_map.mpr ⟨c2m, hc2, rfl⟩
        obtain ⟨c1, hc1, he⟩ := List.mem_map.mp hmemcode
        rw [← he]
        exact hinv.1 c1 hc1
      · rw [hcodes]
        exact hinv.2.1
      · rw [hids2]
        exact hinv.2.2
    · rw [if_neg hU] at hshape
      exact keep hshape
  | delete_classroom id user _ msg _ h =>
    have hshape := delete_classroom_ok_shape h
    have hsub : db2.classrooms.Sublist db.classrooms := by
      rw [hshape]
      exact List.eraseP_sublist _
    unfold ClassroomInv at hinv ⊢
    exact ⟨fun c2m hc2 => hinv.1 c2m (hsub.subset hc2),
      (hsub.map (fun c => c.code)).nodup hinv.2.1,
      (hsub.map (fun c => c.id)).nodup hinv.2.2⟩
  | create_classroom data user classroom_id now randoms _ cx _ hid h =>
    obtain ⟨hcls, hcid, ⟨r, hr, hcode⟩, hfresh⟩ := create_classroom_ok_inv h
    unfold ClassroomInv at hinv ⊢
    rw [hcls]
    have hfresh2 : cx.code ∉ db.classrooms.map (fun k => k.code) := by
      intro hmem
      obtain ⟨k, hk, he⟩ := List.mem_map.mp hmem
      rw [List.find?_eq_none] at hfresh
      exact hfresh k hk (by simp [he])
    have hidfresh : cx.id ∉ db.classrooms.map (fun k => k.id) := by
      rw [Option.isNone_iff_eq_none, List.find?_eq_none] at hid
      intro hmem
      obtain ⟨k, hk, he⟩ := List.mem_map.mp hmem
      exact hid k hk (by simp [he, hcid])
    refine ⟨?_, ?_, ?_⟩
    · intro c2m hc2
      rcases List.mem_append.mp hc2 with h1 | h1
      · exact hinv.1 c2m h1
      · have he2 : c2m = cx := by simpa using h1
        subst he2
        rw [hcode]
        exact generate_code_valid r
    · rw [List.map_append]
      exact List.Nodup.append hinv.2.1 (List.nodup_singleton _)
        (fun x hx hx2 => by
          simp at hx2
          subst hx2
          exact hfresh2 hx)
    · rw [List.map_append]
      exact List.Nodup.append hinv.2.2 (List.nodup_singleton _)
        (fun x hx hx2 => by
          simp at hx2
          subst hx2
          exact hidfresh hx)

/-- C4: in every reachable state, classroom codes are six uppercase
alphanumeric characters and globally unique, and no successful operation ever
changes the code of a surviving classroom. -/
theorem classroom_code_invariant (db : DB) (h : Reachable db) :
    ((∀ c ∈ db.classrooms, c.code.length = 6 ∧ ∀ ch ∈ c.code.data, ch ∈ codeAlphabet) ∧
      (db.classrooms.map (fun c => c.code)).Nodup) ∧
    (∀ db2, Step db db2 → ∀ c ∈ db.classrooms, ∀ c2 ∈ db2.classrooms,
      c2.id = c.id → c2.code = c.code) := by
  have hinv : ClassroomInv db := by
    unfold Reachable at h
    induction h with
    | refl =>
      exact ⟨fun c hc => absurd hc (List.not_mem_nil c),
        List.nodup_nil, List.nodup_nil⟩
    | tail hab hbc ih => exact step_preserves_classroom_inv hbc ih
  refine ⟨⟨hinv.1, hinv.2.1⟩, ?_⟩
  intro db2 hstep c hc c2 hc2 hideq
  have stable : ∀ dbx : DB, dbx.classrooms = db.classrooms →
      c2 ∈ dbx.classrooms → c2.code = c.code := by
    intro dbx he hc2x
    rw [he] at hc2x
    have he2 : c2 = c := mem_eq_of_map_nodup (fun x => x.id) hinv.2.2 hc2x hc hideq
    rw [he2]
  cases hstep with
  | register _ _ _ _ _ _ _ _ h => exact stable db2 (register_ok_classrooms h) hc2
  | update_profile _ _ _ _ _ _ h =>
    exact stable db2 (update_profile_ok_classrooms h) hc2
  | change_password _ _ _ _ _ _ _ h =>
    exact stable db2 (change_password_ok_classrooms h) hc2
  | join_classroom _ _ _ _ _ _ _ h =>
    exact stable db2 (join_classroom_ok_classrooms h) hc2
  | leave_classroom _ _ _ _ _ h =>
    exact stable db2 (leave_classroom_ok_classrooms h) hc2
  | create_material _ _ _ _ _ _ _ _ h =>
    exact stable db2 (create_material_ok_classrooms h) hc2
  | update_material _ _ _ _ _ _ _ h =>
    exact stable db2 (update_material_ok_classrooms h) hc2
  | delete_material _ _ _ _ _ h =>
    exact stable db2 (delete_material_ok_classrooms h) hc2
  | reorder_materials _ _ _ _ _ _ h =>
    exact stable db2 (reorder_materials_ok_classrooms h) hc2
  | update_classroom id data user now _ cx _ h =>
    have hshape := update_classroom_ok_shape h
    by_cases hU : classroomUpdateHas data = true
    · rw [if_pos hU] at hshape
      have hc2x : c2 ∈ updateFirst (fun k => k.id == id)
          (applyClassroomUpdate data now) db.classrooms := by
        rw [← hshape]
        exact hc2
      rcases updateFirst_mem _ _ db.classrooms c2 hc2x with h1 | ⟨x, hx, he⟩
      · have he2 : c2 = c := mem_eq_of_map_nodup (fun k => k.id) hinv.2.2 h1 hc hideq
        rw [he2]
      · have hxid : x.id = c.id := by
          rw [← hideq, he]
          exact (applyClassroomUpdate_keeps data now x).2
        have hxc : x = c := mem_eq_of_map_nodup (fun k => k.id) hinv.2.2 hx hc hxid
        rw [he, (applyClassroomUpdate_keeps data now x).1, hxc]
    · rw [if_neg hU] at hshape
      exact stable db2 hshape hc2
  | delete_classroom id user _ msg _ h =>
    have hshape := delete_classroom_ok_shape h
    have hsub : db2.classrooms.Sublist db.classrooms := by
      rw [hshape]
      exact List.eraseP_sublist _
    have he2 : c2 = c := mem_eq_of_map_nodup (fun k => k.id) hinv.2.2
      (hsub.subset hc2) hc hideq
    rw [he2]
  | create_classroom data user classroom_id now randoms _ cx _ hid h =>
    obtain ⟨hcls, hcid, -, -⟩ := create_classroom_ok_inv h
    have hc2x : c2 ∈ db.classrooms ++ [cx] := by
      rw [← hcls]
      exact hc2
    rcases List.mem_append.mp hc2x with h1 | h1
    · have he2 : c2 = c := mem_eq_of_map_nodup (fun k => k.id) hinv.2.2 h1 hc hideq
      rw [he2]
    · exfalso
      have he2 : c2 = cx := by simpa using h1
      subst he2
      rw [Option.isNone_iff_eq_none, List.find?_eq_none] at hid
      have hcc : c.id = classroom_id := by
        rw [← hideq]
        exact hcid
      exact hid c hc (by simp [hcc])

/-- C4 witness: a concrete reachable state (register a teacher, then create a
classroom) on which the invariant and the stability statement are instances of
the theorem. -/
theorem classroom_code_invariant_witness :
    ((∀ c ∈ wdb.classrooms, c.code.length = 6 ∧ ∀ ch ∈ c.code.data, ch ∈ codeAlphabet) ∧
      (wdb.classrooms.map (fun c => c.code)).Nodup) ∧
    (∀ db2, Step wdb db2 → ∀ c ∈ wdb.classrooms, ∀ c2 ∈ db2.classrooms,
      c2.id = c.id → c2.code = c.code) := by
  have s1 : Step DB.empty c3db :=
    Step.register c3data "u1" "h1" "d0" 0 DB.empty (c3user, c3tok) c3db (by decide)
  have s2 : Step c3db wdb :=
    Step.create_classroom ccData c3user "c1" "d0" [r0] c3db wRoom wdb
      (by decide) (by decide)
  exact classroom_code_invariant wdb ((Relation.ReflTransGen.refl.tail s1).tail s2)

end Elearn
